import Mathlib

/-!
Verification development for the two-layer I/O stack of the repository
(libavformat/aviobuf.c and libavformat/avio.c): a shallow embedding in Lean 4
of the buffered stream (AVIOContext), the in-memory dynamic buffers, the
protocol registry dispatch of ffurl_alloc, and the unbuffered retry wrapper,
together with theorems settling the specification claims about them.

Modelling conventions:
- machine bytes are `Nat` values kept below 256 by reducing modulo 256 at
  every store, mirroring the `uint8_t` truncation of the C code;
- C `int64_t` quantities (positions, return codes) are `Int`;
- a buffer is a `List Nat` describing the initialised bytes of the malloc'd
  region; a freshly allocated region is modelled as zeros;
- callbacks (`read_packet`, `write_packet`, `seek`) are optional pure
  functions threading the opaque cookie state;
- the fields `handed`, `emitted` and `transport_seeks` are ghost
  instrumentation counting the bytes actually passed to `write_packet`, the
  bytes passed through `writeout`, and the invocations of the transport seek
  callback; they affect nothing else.
-/

/-! ### Error codes and constants (avio.h, error.h, C library) -/

def AVERROR_EINVAL : Int := -22
def AVERROR_EIO : Int := -5
def AVERROR_EPIPE : Int := -32
def AVERROR_EAGAIN : Int := -11
def AVERROR_EINTR : Int := -4
def AVERROR_ENOSYS : Int := -38
def AVERROR_EOF : Int := -541478725
def AVERROR_EXIT : Int := -1414092869
def AVERROR_PROTOCOL_NOT_FOUND : Int := -1330794744

def SEEK_SET : Nat := 0
def SEEK_CUR : Nat := 1
def SEEK_END : Nat := 2
def AVSEEK_SIZE : Nat := 65536
def AVSEEK_FORCE : Nat := 131072

def AVIO_FLAG_READ : Nat := 1
def AVIO_FLAG_WRITE : Nat := 2
def AVIO_FLAG_NONBLOCK : Nat := 8

def IO_BUFFER_SIZE : Nat := 32768
def SHORT_SEEK_THRESHOLD : Nat := 4096
def FF_INPUT_BUFFER_PADDING_SIZE : Nat := 16

/-- Overwrite the bytes of `l` starting at index `i` with `new`, extending the
list (with zero filler for any uninitialised gap) when needed.  This models
`memcpy(region + i, new, len)` on a byte region whose initialised prefix is
`l`. -/
def overlay (l : List Nat) (i : Nat) (new : List Nat) : List Nat :=
  l.takeD i 0 ++ new ++ l.drop (i + new.length)

/-! ### The buffered stream: AVIOContext (aviobuf.c) -/

/-- The AVIOContext structure, parameterised by the type `σ` of the opaque
cookie state threaded through the callbacks.  Fields mirror the C struct;
`handed`, `emitted`, `transport_seeks` are ghost counters (see header). -/
structure AVIOContext (σ : Type) where
  cookie : σ
  read_packet : Option (σ → Nat → Int × List Nat × σ)
  write_packet : Option (σ → List Nat → Int × σ)
  seek : Option (σ → Int → Nat → Int × σ)
  update_checksum : Option (Nat → List Nat → Nat)
  checksum : Nat
  checksum_ptr : Nat
  buffer : List Nat
  buffer_size : Nat
  buf_ptr : Nat
  buf_end : Nat
  pos : Int
  write_flag : Bool
  eof_reached : Bool
  error : Int
  must_flush : Bool
  seekable : Bool
  direct : Bool
  max_packet_size : Nat
  bytes_read : Int
  seek_count : Nat
  handed : Nat
  emitted : Nat
  transport_seeks : Nat

/-- `url_resetbuf` (aviobuf.c): in write mode `buf_end` marks the end of the
buffer capacity; in read mode the buffer starts out empty. -/
def url_resetbuf (s : AVIOContext σ) (write : Bool) : AVIOContext σ :=
  if write then
    { s with buf_end := s.buffer_size, write_flag := true }
  else
    { s with buf_end := 0, write_flag := false }

/-- `ffio_init_context` (aviobuf.c).  The special case at the end treats a
context with neither `read_packet` nor write polarity as a pre-filled literal
region. -/
def ffio_init_context (buffer : List Nat) (buffer_size : Nat) (write_flag : Bool)
    (cookie : σ)
    (read_packet : Option (σ → Nat → Int × List Nat × σ))
    (write_packet : Option (σ → List Nat → Int × σ))
    (seek : Option (σ → Int → Nat → Int × σ)) : AVIOContext σ :=
  let s : AVIOContext σ :=
    { cookie := cookie
      read_packet := read_packet
      write_packet := write_packet
      seek := seek
      update_checksum := none
      checksum := 0
      checksum_ptr := 0
      buffer := buffer
      buffer_size := buffer_size
      buf_ptr := 0
      buf_end := 0
      pos := 0
      write_flag := write_flag
      eof_reached := false
      error := 0
      must_flush := false
      seekable := true
      direct := false
      max_packet_size := 0
      bytes_read := 0
      seek_count := 0
      handed := 0
      emitted := 0
      transport_seeks := 0 }
  let s := url_resetbuf s write_flag
  if read_packet.isNone ∧ write_flag = false then
    { s with pos := (buffer_size : Int), buf_end := buffer_size }
  else s

/-- `writeout` (aviobuf.c): hand `data` to `write_packet` unless it is absent
or an error is latched; a negative return latches `error`; `pos` advances by
the length in every case. -/
def writeout (s : AVIOContext σ) (data : List Nat) : AVIOContext σ :=
  let s :=
    match s.write_packet with
    | some wp =>
      if s.error = 0 then
        let r := wp s.cookie data
        { s with cookie := r.2
                 error := if r.1 < 0 then r.1 else s.error
                 handed := s.handed + data.length }
      else s
    | none => s
  { s with pos := s.pos + data.length, emitted := s.emitted + data.length }

/-- `flush_buffer` (aviobuf.c): emit the pending bytes `[buffer, buf_ptr)`,
absorb them into an active checksum window, and reset `buf_ptr`. -/
def flush_buffer (s : AVIOContext σ) : AVIOContext σ :=
  let s :=
    if 0 < s.buf_ptr then
      let s1 := writeout s (s.buffer.take s.buf_ptr)
      match s1.update_checksum with
      | some f =>
        { s1 with
            checksum := f s1.checksum ((s1.buffer.take s1.buf_ptr).drop s1.checksum_ptr)
            checksum_ptr := 0 }
      | none => s1
    else s
  { s with buf_ptr := 0 }

/-- `avio_w8` (aviobuf.c): store one byte at the cursor and flush when the
buffer becomes full. -/
def avio_w8 (s : AVIOContext σ) (b : Nat) : AVIOContext σ :=
  let s := { s with buffer := overlay s.buffer s.buf_ptr [b % 256], buf_ptr := s.buf_ptr + 1 }
  if s.buf_end ≤ s.buf_ptr then flush_buffer s else s

/-- `avio_flush` (aviobuf.c). -/
def avio_flush (s : AVIOContext σ) : AVIOContext σ :=
  let s := flush_buffer s
  { s with must_flush := false }

/-- The copy loop of `avio_write` (aviobuf.c), fuelled; `2 * size + 1` steps
always suffice because an iteration either consumes input bytes or flushes a
full buffer so that the next iteration can. -/
def avio_write_loop (fuel : Nat) (s : AVIOContext σ) (buf : List Nat) : AVIOContext σ :=
  match fuel with
  | 0 => s
  | fuel + 1 =>
    if 0 < buf.length then
      let len := min (s.buf_end - s.buf_ptr) buf.length
      let s := { s with buffer := overlay s.buffer s.buf_ptr (buf.take len)
                        buf_ptr := s.buf_ptr + len }
      let s := if s.buf_end ≤ s.buf_ptr then flush_buffer s else s
      avio_write_loop fuel s (buf.drop len)
    else s

/-- `avio_write` (aviobuf.c): in direct mode with no active checksum, flush
and emit the slice directly; otherwise copy through the buffer.  The incoming
caller memory is a byte region, hence the mod-256 view of its entries. -/
def avio_write (s : AVIOContext σ) (buf : List Nat) : AVIOContext σ :=
  let buf := buf.map (fun b => b % 256)
  if s.direct ∧ s.update_checksum.isNone then
    let s := avio_flush s
    writeout s buf
  else
    avio_write_loop (2 * buf.length + 1) s buf

/-! ### Typed writers (aviobuf.c).  The C casts `(uint8_t)x` and the
arithmetic-shift idiom `(int)val >> k` both store the byte `(val >> k) % 256`,
which is what `avio_w8`'s mod-256 store produces from the `Nat` shift. -/

def avio_wl16 (s : AVIOContext σ) (val : Nat) : AVIOContext σ :=
  avio_w8 (avio_w8 s (val % 256)) (val >>> 8)

def avio_wb16 (s : AVIOContext σ) (val : Nat) : AVIOContext σ :=
  avio_w8 (avio_w8 s (val >>> 8)) (val % 256)

def avio_wl24 (s : AVIOContext σ) (val : Nat) : AVIOContext σ :=
  avio_w8 (avio_wl16 s (val &&& 65535)) (val >>> 16)

def avio_wb24 (s : AVIOContext σ) (val : Nat) : AVIOContext σ :=
  avio_w8 (avio_wb16 s (val >>> 8)) (val % 256)

def avio_wl32 (s : AVIOContext σ) (val : Nat) : AVIOContext σ :=
  avio_w8 (avio_w8 (avio_w8 (avio_w8 s (val % 256)) (val >>> 8)) (val >>> 16)) (val >>> 24)

def avio_wb32 (s : AVIOContext σ) (val : Nat) : AVIOContext σ :=
  avio_w8 (avio_w8 (avio_w8 (avio_w8 s (val >>> 24)) ((val >>> 16) % 256)) ((val >>> 8) % 256)) (val % 256)

def avio_wl64 (s : AVIOContext σ) (val : Nat) : AVIOContext σ :=
  avio_wl32 (avio_wl32 s (val &&& 4294967295)) (val >>> 32)

def avio_wb64 (s : AVIOContext σ) (val : Nat) : AVIOContext σ :=
  avio_wb32 (avio_wb32 s (val >>> 32)) (val &&& 4294967295)

/-- `ff_get_v_length` (aviobuf.c): the number of 7-bit groups of `val`. -/
def ff_get_v_length (val : Nat) : Nat :=
  if val >>> 7 = 0 then 1 else 1 + ff_get_v_length (val >>> 7)
termination_by val
decreasing_by
  simp only [Nat.shiftRight_eq_div_pow] at *
  omega

/-- The countdown loop of `ff_put_v` (aviobuf.c): `while(--i > 0)` emits the
groups at positions `i, i-1, …, 1`, each with the continuation bit 128. -/
def ff_put_v_loop (val : Nat) (bc : AVIOContext σ) : Nat → AVIOContext σ
  | 0 => bc
  | i + 1 => ff_put_v_loop val (avio_w8 bc (128 ||| ((val >>> (7 * (i + 1))) % 256))) i

/-- `ff_put_v` (aviobuf.c): 7-bit group encoding, most significant group
first, continuation bit on all groups but the last. -/
def ff_put_v (bc : AVIOContext σ) (val : Nat) : AVIOContext σ :=
  let i := ff_get_v_length val
  let bc := ff_put_v_loop val bc (i - 1)
  avio_w8 bc (val &&& 127)

/-! ### Read path (aviobuf.c) -/

/-- `ffio_set_buf_size` (aviobuf.c): install a freshly allocated (hence
zeroed in the model) buffer of the requested size and reset it. -/
def ffio_set_buf_size (s : AVIOContext σ) (buf_size : Nat) : AVIOContext σ :=
  let s := { s with buffer := List.replicate buf_size 0
                    buffer_size := buf_size
                    buf_ptr := 0 }
  url_resetbuf s s.write_flag

/-- The destination index `fill_buffer` chooses: append at `buf_end` when
there is room and no packet constraint, else overwrite from the start. -/
def fill_buffer_dst (s : AVIOContext σ) : Nat :=
  if s.max_packet_size = 0 ∧ s.buf_end < s.buffer_size then s.buf_end else 0

/-- The length `fill_buffer` requests from `read_packet`. -/
def fill_buffer_len (s : AVIOContext σ) : Nat :=
  s.buffer_size - fill_buffer_dst s

/-- `fill_buffer` (aviobuf.c).  A `read_packet` return of at most 0 sets
`eof_reached` (latching `error` when negative) and leaves `buf_ptr`/`buf_end`
alone; a positive return installs the bytes and advances `pos`. -/
def fill_buffer (s : AVIOContext σ) : AVIOContext σ :=
  let dst := fill_buffer_dst s
  let len := fill_buffer_len s
  let max_buffer_size := if s.max_packet_size ≠ 0 then s.max_packet_size else IO_BUFFER_SIZE
  let s := if s.read_packet.isNone ∧ s.buf_end ≤ s.buf_ptr then { s with eof_reached := true } else s
  if s.eof_reached then s
  else
    let s :=
      match s.update_checksum with
      | some f =>
        if dst = 0 then
          let s :=
            if s.checksum_ptr < s.buf_end then
              { s with checksum := f s.checksum ((s.buffer.take s.buf_end).drop s.checksum_ptr) }
            else s
          { s with checksum_ptr := 0 }
        else s
      | none => s
    let shrink := s.read_packet.isSome ∧ max_buffer_size < s.buffer_size
    let s := if shrink then { (ffio_set_buf_size s max_buffer_size) with checksum_ptr := 0 } else s
    let dst := if shrink then 0 else dst
    let len := if shrink then s.buffer_size else len
    match s.read_packet with
    | some rp =>
      let r := rp s.cookie len
      let s := { s with cookie := r.2.2 }
      if r.1 ≤ 0 then
        { s with eof_reached := true, error := if r.1 < 0 then r.1 else s.error }
      else
        { s with pos := s.pos + r.1
                 buf_ptr := dst
                 buf_end := dst + r.1.toNat
                 buffer := overlay s.buffer dst ((r.2.1.take r.1.toNat).map (fun b => b % 256))
                 bytes_read := s.bytes_read + r.1 }
    | none => { s with eof_reached := true }

/-- `avio_r8` (aviobuf.c): refill on exhaustion, deliver the byte at the
cursor, or 0 at EOF. -/
def avio_r8 (s : AVIOContext σ) : Nat × AVIOContext σ :=
  let s := if s.buf_end ≤ s.buf_ptr then fill_buffer s else s
  if s.buf_ptr < s.buf_end then
    (s.buffer.getD s.buf_ptr 0, { s with buf_ptr := s.buf_ptr + 1 })
  else (0, s)

/-! ### Typed readers (aviobuf.c) -/

def avio_rl16 (s : AVIOContext σ) : Nat × AVIOContext σ :=
  let r0 := avio_r8 s
  let r1 := avio_r8 r0.2
  (r0.1 ||| r1.1 <<< 8, r1.2)

def avio_rl24 (s : AVIOContext σ) : Nat × AVIOContext σ :=
  let r0 := avio_rl16 s
  let r1 := avio_r8 r0.2
  (r0.1 ||| r1.1 <<< 16, r1.2)

def avio_rl32 (s : AVIOContext σ) : Nat × AVIOContext σ :=
  let r0 := avio_rl16 s
  let r1 := avio_rl16 r0.2
  (r0.1 ||| r1.1 <<< 16, r1.2)

def avio_rl64 (s : AVIOContext σ) : Nat × AVIOContext σ :=
  let r0 := avio_rl32 s
  let r1 := avio_rl32 r0.2
  (r0.1 ||| r1.1 <<< 32, r1.2)

def avio_rb16 (s : AVIOContext σ) : Nat × AVIOContext σ :=
  let r0 := avio_r8 s
  let r1 := avio_r8 r0.2
  (r0.1 <<< 8 ||| r1.1, r1.2)

def avio_rb24 (s : AVIOContext σ) : Nat × AVIOContext σ :=
  let r0 := avio_rb16 s
  let r1 := avio_r8 r0.2
  (r0.1 <<< 8 ||| r1.1, r1.2)

def avio_rb32 (s : AVIOContext σ) : Nat × AVIOContext σ :=
  let r0 := avio_rb16 s
  let r1 := avio_rb16 r0.2
  (r0.1 <<< 16 ||| r1.1, r1.2)

def avio_rb64 (s : AVIOContext σ) : Nat × AVIOContext σ :=
  let r0 := avio_rb32 s
  let r1 := avio_rb32 r0.2
  (r0.1 <<< 32 ||| r1.1, r1.2)

/-- The do-while loop of `ffio_read_varlen` (aviobuf.c), fuelled.  Each
iteration that continues has just consumed a buffered byte with bit 7 set, so
on a stream without `read_packet` the loop runs at most `buf_end - buf_ptr + 1`
times and the fuel chosen by `ffio_read_varlen` is exact. -/
def ffio_read_varlen_loop (bc : AVIOContext σ) (val : Nat) : Nat → Nat × AVIOContext σ
  | 0 => (val, bc)
  | fuel + 1 =>
    let r := avio_r8 bc
    let tmp := r.1
    let val := (val <<< 7) + (tmp &&& 127)
    if tmp &&& 128 ≠ 0 then ffio_read_varlen_loop r.2 val fuel else (val, r.2)

/-- `ffio_read_varlen` (aviobuf.c): inverse of the 7-bit group encoding. -/
def ffio_read_varlen (bc : AVIOContext σ) : Nat × AVIOContext σ :=
  ffio_read_varlen_loop bc 0 (bc.buf_end - bc.buf_ptr + 1)

/-! ### avio_seek (aviobuf.c) -/

/-- The forward-skip loop of `avio_seek`: `while (pos < offset && !eof)
fill_buffer`, fuelled (a positive `read_packet` strictly advances `pos`, so
enough fuel makes this the exact loop). -/
def avio_seek_skip_loop (fuel : Nat) (s : AVIOContext σ) (offset : Int) : AVIOContext σ :=
  match fuel with
  | 0 => s
  | fuel + 1 =>
    if s.pos < offset ∧ s.eof_reached = false then
      avio_seek_skip_loop fuel (fill_buffer s) offset
    else s

/-- `avio_seek` (aviobuf.c).  `4294836223` is the 32-bit complement of
`AVSEEK_FORCE`, mirroring `whence &= ~AVSEEK_FORCE` on the C int. -/
def avio_seek (fuel : Nat) (s : AVIOContext σ) (offset : Int) (whence : Nat) : Int × AVIOContext σ :=
  let force := whence &&& AVSEEK_FORCE
  let whence := whence &&& 4294836223
  let pos := s.pos - (if s.write_flag then 0 else (s.buf_end : Int))
  if whence ≠ SEEK_CUR ∧ whence ≠ SEEK_SET then (AVERROR_EINVAL, s)
  else if whence = SEEK_CUR ∧ offset = 0 then (pos + s.buf_ptr, s)
  else
    let offset := if whence = SEEK_CUR then offset + (pos + s.buf_ptr) else offset
    let offset1 := offset - pos
    if s.must_flush = false ∧ (s.direct = false ∨ s.seek.isNone) ∧
        0 ≤ offset1 ∧ offset1 ≤ (s.buf_end : Int) then
      (offset, { s with buf_ptr := offset1.toNat, eof_reached := false })
    else if (s.seekable = false ∨ offset1 ≤ (s.buf_end : Int) + (SHORT_SEEK_THRESHOLD : Int)) ∧
        s.write_flag = false ∧ 0 ≤ offset1 ∧ (s.direct = false ∨ s.seek.isNone) ∧
        (whence ≠ SEEK_END ∨ force ≠ 0) then
      let s := avio_seek_skip_loop fuel s offset
      if s.eof_reached then (AVERROR_EOF, s)
      else (offset, { s with buf_ptr := s.buf_end - (s.pos - offset).toNat, eof_reached := false })
    else
      let s := if s.write_flag then { (flush_buffer s) with must_flush := true } else s
      match s.seek with
      | none => (AVERROR_EPIPE, s)
      | some sk =>
        let r := sk s.cookie offset SEEK_SET
        let s := { s with cookie := r.2, transport_seeks := s.transport_seeks + 1 }
        if r.1 < 0 then (r.1, s)
        else
          let s := { s with seek_count := s.seek_count + 1 }
          let s := if s.write_flag = false then { s with buf_end := 0 } else s
          (offset, { s with buf_ptr := 0, pos := offset, eof_reached := false })

/-! ### Write-operation sequences for the offset-coherence claim -/

/-- One buffered-stream write operation: `avio_w8`, `avio_write` or
`avio_flush`. -/
inductive WriteOp where
  | w8 (b : Nat)
  | write (bs : List Nat)
  | flush

/-- Run a sequence of write operations against a stream. -/
def runWriteOps (s : AVIOContext σ) : List WriteOp → AVIOContext σ
  | [] => s
  | op :: ops =>
    let s :=
      match op with
      | .w8 b => avio_w8 s b
      | .write bs => avio_write s bs
      | .flush => avio_flush s
    runWriteOps s ops

/-! ### In-memory dynamic buffers (aviobuf.c) -/

/-- The DynBuffer structure (aviobuf.c); `buffer` is the initialised region
of the growable allocation. -/
structure DynBuffer where
  pos : Nat
  size : Nat
  allocated_size : Nat
  buffer : List Nat

/-- The capacity-growth loop of `dyn_buf_write`:
`while (new_size > a) a = a ? a + a/2 + 1 : new_size`. -/
def growAlloc (new_size : Nat) (a : Nat) : Nat :=
  if new_size > a then growAlloc new_size (if a = 0 then new_size else a + a / 2 + 1) else a
termination_by new_size - a
decreasing_by
  split
  all_goals omega

/-- `dyn_buf_write` (aviobuf.c): refuse sizes beyond `INT_MAX/2`, grow the
allocation, copy at `pos`, and track the high-water mark in `size`. -/
def dyn_buf_write (d : DynBuffer) (buf : List Nat) : Int × DynBuffer :=
  let new_size := d.pos + buf.length
  if new_size > 1073741823 then (-1, d)
  else
    let d := { d with allocated_size := growAlloc new_size d.allocated_size }
    let d := { d with buffer := overlay d.buffer d.pos (buf.map (fun b => b % 256))
                      pos := new_size }
    let d := if d.size < d.pos then { d with size := d.pos } else d
    ((buf.length : Int), d)

/-- `AV_WB32` (intreadwrite.h): the four big-endian bytes of a 32-bit store. -/
def AV_WB32 (v : Nat) : List Nat :=
  [(v >>> 24) % 256, (v >>> 16) % 256, (v >>> 8) % 256, v % 256]

/-- `dyn_packet_buf_write` (aviobuf.c): a 4-byte big-endian length header,
then the payload. -/
def dyn_packet_buf_write (d : DynBuffer) (buf : List Nat) : Int × DynBuffer :=
  let buf1 := AV_WB32 buf.length
  let r := dyn_buf_write d buf1
  if r.1 < 0 then r
  else dyn_buf_write r.2 buf

/-- `url_open_dyn_buf_internal` (aviobuf.c) in its packetised configuration:
a write-mode stream over a fresh DynBuffer whose `write_packet` is
`dyn_packet_buf_write` and which has no seek callback. -/
def open_dyn_packet_buf_ctx (max_packet_size : Nat) : AVIOContext DynBuffer :=
  let io_buffer_size := if max_packet_size ≠ 0 then max_packet_size else 1024
  let d : DynBuffer := { pos := 0, size := 0, allocated_size := 0, buffer := [] }
  let s := ffio_init_context (List.replicate io_buffer_size 0) io_buffer_size true d
      none (some (fun d buf => dyn_packet_buf_write d buf)) none
  { s with max_packet_size := max_packet_size }

/-- `ffio_open_dyn_packet_buf` (aviobuf.c): requires a positive packet size. -/
def ffio_open_dyn_packet_buf (max_packet_size : Nat) : Option (AVIOContext DynBuffer) :=
  if max_packet_size = 0 then none else some (open_dyn_packet_buf_ctx max_packet_size)

/-- `avio_close_dyn_buf` (aviobuf.c): pad continuous buffers, flush, and
return the accumulated bytes together with the reported size. -/
def avio_close_dyn_buf (s : AVIOContext DynBuffer) : List Nat × Int :=
  let padding : Nat := 0
  let r :=
    if s.max_packet_size = 0 then
      (avio_write s (List.replicate FF_INPUT_BUFFER_PADDING_SIZE 0), FF_INPUT_BUFFER_PADDING_SIZE)
    else (s, padding)
  let s := avio_flush r.1
  (s.cookie.buffer, (s.cookie.size : Int) - (r.2 : Int))

/-! ### Protocol registry and URL dispatch (avio.c) -/

/-- A protocol descriptor: the `name` and capability flags are all the
dispatcher consults. -/
structure URLProtocol where
  name : List Char
  flags : Nat
deriving DecidableEq

def URL_PROTOCOL_FLAG_NESTED_SCHEME : Nat := 1

/-- The character class `URL_SCHEME_CHARS` of avio.c. -/
def isSchemeChar (c : Char) : Bool :=
  decide ((Char.ofNat 97 ≤ c ∧ c ≤ Char.ofNat 122) ∨ (Char.ofNat 65 ≤ c ∧ c ≤ Char.ofNat 90) ∨
    (Char.ofNat 48 ≤ c ∧ c ≤ Char.ofNat 57) ∨ c = Char.ofNat 43 ∨ c = Char.ofNat 45 ∨ c = Char.ofNat 46)

/-- Modelled from the spec: `is_dos_path` lives in os_support.h, which is not
among the source files; the spec says a filename matching a DOS-style
absolute path (a drive letter followed by a colon, `X:` or `X:\`) forces the
`"file"` scheme. -/
def is_dos_path (filename : List Char) : Bool :=
  match filename with
  | c0 :: c1 :: _ =>
    decide (((Char.ofNat 97 ≤ c0 ∧ c0 ≤ Char.ofNat 122) ∨ (Char.ofNat 65 ≤ c0 ∧ c0 ≤ Char.ofNat 90)) ∧
      c1 = Char.ofNat 58)
  | _ => false

/-- Truncate a string at the first occurrence of `sep` (the
`strchr`-and-overwrite idiom of ffurl_alloc). -/
def truncAtChar (sep : Char) (l : List Char) : List Char :=
  l.takeWhile (fun c => c ≠ sep)

/-- The scheme extraction of `ffurl_alloc` (avio.c): the maximal leading run
of scheme characters, forced to "file" when not followed by a colon or comma
or when the filename is a DOS path, copied through a 128-byte `proto_str`
and truncated at the first comma. -/
def extractScheme (filename : List Char) : List Char :=
  let proto_len := (filename.takeWhile isSchemeChar).length
  let term := filename.getD proto_len (Char.ofNat 0)
  let proto_str :=
    if (term ≠ Char.ofNat 58 ∧ term ≠ Char.ofNat 44) ∨ is_dos_path filename then
      String.toList "file"
    else filename.take (min proto_len 127)
  truncAtChar (Char.ofNat 44) proto_str

/-- The nested scheme of `ffurl_alloc`: `proto_str` truncated at the first
plus sign. -/
def nestedScheme (filename : List Char) : List Char :=
  truncAtChar (Char.ofNat 43) (extractScheme filename)

/-- The registry walk of `ffurl_alloc` (avio.c): a single pass that, at each
descriptor, first compares the full scheme and then, for nested-capable
descriptors, the nested scheme. -/
def ffurl_find_protocol_loop (proto_str proto_nested : List Char) :
    List URLProtocol → Option URLProtocol
  | [] => none
  | up :: rest =>
    if up.name = proto_str then some up
    else if up.flags &&& URL_PROTOCOL_FLAG_NESTED_SCHEME ≠ 0 ∧ up.name = proto_nested then some up
    else ffurl_find_protocol_loop proto_str proto_nested rest

/-- The dispatch outcome of `ffurl_alloc` (avio.c): the chosen descriptor, or
`AVERROR_PROTOCOL_NOT_FOUND` when the walk finds none. -/
def ffurl_alloc_protocol (protocols : List URLProtocol) (filename : List Char) :
    Except Int URLProtocol :=
  match ffurl_find_protocol_loop (extractScheme filename) (nestedScheme filename) protocols with
  | some up => Except.ok up
  | none => Except.error AVERROR_PROTOCOL_NOT_FOUND

/-! ### Unbuffered retry wrapper (avio.c) -/

/-- Parameters of `retry_transfer_wrapper`: the handle's non-blocking flag
and `rw_timeout`, the requested `size` and the minimum `size_min`. -/
structure RetryParams where
  nonblock : Bool
  rw_timeout : Int
  size : Nat
  size_min : Nat

/-- The loop state of `retry_transfer_wrapper`.  `done` records an executed
`return`; `sleeps` counts `av_usleep(1000)` calls; `gettime_calls` and
`intr_calls` index into the ambient clock and interrupt-callback oracles. -/
structure RetrySt where
  len : Nat
  fast_retries : Nat
  wait_since : Int
  done : Option Int
  sleeps : Nat
  gettime_calls : Nat
  intr_calls : Nat

def retryInit : RetrySt :=
  { len := 0, fast_retries := 5, wait_since := 0, done := none
    sleeps := 0, gettime_calls := 0, intr_calls := 0 }

/-- The end-of-iteration interrupt poll:
`if (len < size && ff_check_interrupt(..)) return AVERROR_EXIT`. -/
def retryInterrupt (p : RetryParams) (intr : Nat → Bool) (st : RetrySt) : RetrySt :=
  let fired := intr st.intr_calls
  let st := { st with intr_calls := st.intr_calls + 1 }
  if st.len < p.size ∧ fired then { st with done := some AVERROR_EXIT } else st

/-- One iteration of `retry_transfer_wrapper` (avio.c) on the transfer result
`ret`: `EINTR` retries at once; a non-blocking handle returns verbatim;
`EAGAIN` spends a fast retry or, once those are gone, arms/checks the
`rw_timeout` deadline and sleeps; other results below 1 return; a positive
transfer replenishes the fast-retry budget to at least 2 and accumulates. -/
def retryStep (p : RetryParams) (clock : Nat → Int) (intr : Nat → Bool)
    (st : RetrySt) (ret : Int) : RetrySt :=
  if ret = AVERROR_EINTR then st
  else if p.nonblock then { st with done := some ret }
  else if ret = AVERROR_EAGAIN then
    let st :=
      if st.fast_retries ≠ 0 then { st with fast_retries := st.fast_retries - 1 }
      else
        let st :=
          if p.rw_timeout ≠ 0 then
            if st.wait_since = 0 then
              { st with wait_since := clock st.gettime_calls
                        gettime_calls := st.gettime_calls + 1 }
            else
              let now := clock st.gettime_calls
              let st := { st with gettime_calls := st.gettime_calls + 1 }
              if st.wait_since + p.rw_timeout < now then { st with done := some AVERROR_EIO } else st
          else st
        if st.done.isSome then st else { st with sleeps := st.sleeps + 1 }
    if st.done.isSome then st else retryInterrupt p intr st
  else if ret < 1 then { st with done := some (if ret < 0 then ret else (st.len : Int)) }
  else
    let st := { st with fast_retries := max st.fast_retries 2, len := st.len + ret.toNat }
    retryInterrupt p intr st

/-- The `while (len < size_min)` loop of `retry_transfer_wrapper`, driven by
the list of successive transfer-callback results. -/
def retryRun (p : RetryParams) (clock : Nat → Int) (intr : Nat → Bool) :
    List Int → RetrySt → RetrySt
  | [], st => st
  | r :: rs, st =>
    if st.done.isNone ∧ st.len < p.size_min then
      retryRun p clock intr rs (retryStep p clock intr st r)
    else st

/-- An unbuffered handle as `ffurl_write` consults it. -/
structure URLContext where
  flags : Nat
  max_packet_size : Nat
  rw_timeout : Int

/-- Outcome of `ffurl_write`: an early precondition failure, or entry into
the retry transfer loop. -/
inductive FfurlWriteResult where
  | failed (code : Int)
  | transferred (st : RetrySt)

/-- `ffurl_write` (avio.c): reject handles without the write direction and
oversized packets with EIO, otherwise run the retry wrapper with
`size_min = size`. -/
def ffurl_write (h : URLContext) (size : Nat) (outcomes : List Int)
    (clock : Nat → Int) (intr : Nat → Bool) : FfurlWriteResult :=
  if h.flags &&& AVIO_FLAG_WRITE = 0 then .failed AVERROR_EIO
  else if h.max_packet_size ≠ 0 ∧ h.max_packet_size < size then .failed AVERROR_EIO
  else .transferred (retryRun
    { nonblock := h.flags &&& AVIO_FLAG_NONBLOCK ≠ 0
      rw_timeout := h.rw_timeout, size := size, size_min := size }
    clock intr outcomes retryInit)

/-! ### Helper definitions used by the claim statements -/

/-- A fresh write-mode stream with a 20-byte buffer and no callbacks: typed
writers deposit their bytes into the buffer (no flush occurs below 20
bytes). -/
def writeCtx : AVIOContext Unit := ffio_init_context [] 20 true () none none none

/-- The write-mode stream whose buffer already holds the pending bytes
`bs`. -/
def wstate (bs : List Nat) : AVIOContext Unit :=
  { writeCtx with buffer := bs, buf_ptr := bs.length }

/-- The bytes a writer `f` deposits into a fresh stream: the pending region
`[buffer, buf_ptr)` after running it. -/
def writtenBytes (f : AVIOContext Unit → AVIOContext Unit) : List Nat :=
  let s := f writeCtx
  s.buffer.take s.buf_ptr

/-- A read-mode stream over a pre-filled literal region (the
`!read_packet && !write_flag` case of `ffio_init_context`): reading starts at
the first byte, i.e. rewound to where writing began. -/
def readLiteral (bytes : List Nat) : AVIOContext Unit :=
  ffio_init_context bytes bytes.length false () none none none

/-- `readLiteral bytes` advanced to cursor `p`. -/
def lit (bytes : List Nat) (p : Nat) : AVIOContext Unit :=
  { readLiteral bytes with buf_ptr := p }

/-- The continuation-bit groups of positions `m, m-1, …, 1` that the
countdown loop of `ff_put_v` stores for `val`. -/
def vlcHigh (val : Nat) : Nat → List Nat
  | 0 => []
  | m + 1 => ((128 ||| ((val >>> (7 * (m + 1))) % 256)) % 256) :: vlcHigh val m

/-- Write-path simulation relation: `t` is reachable from `s` by buffered
write operations; the callback is preserved, `pos` has advanced exactly by
the bytes passed through `writeout`, and the bytes handed to `write_packet`
agree with those emitted as long as no error is latched. -/
def WStep (s t : AVIOContext σ) : Prop :=
  t.write_packet = s.write_packet ∧
  t.pos - (t.emitted : Int) = s.pos - (s.emitted : Int) ∧
  (s.write_packet.isSome → (s.error = 0 → s.handed = s.emitted) →
    (t.error = 0 → t.handed = t.emitted))

/-- Fold `dyn_packet_buf_write` over a list of payloads. -/
def dynPackets (d : DynBuffer) : List (List Nat) → DynBuffer
  | [] => d
  | p :: ps => dynPackets (dyn_packet_buf_write d p).2 ps

/-- The on-medium form of a packet sequence: each payload preceded by its
4-byte big-endian length header. -/
def packetStream (ps : List (List Nat)) : List Nat :=
  ps.flatMap (fun p => AV_WB32 p.length ++ p.map (fun b => b % 256))

/-- The S3 scenario exactly as the claim words it: open a packetised dynamic
buffer with `max_packet_size = 1024`, write the payloads `[0xAA,0xBB,0xCC]`
and `[0xDD]`, close. -/
def dynScenarioNoFlush : List Nat × Int :=
  let s := open_dyn_packet_buf_ctx 1024
  let s := avio_write s [170, 187, 204]
  let s := avio_write s [221]
  avio_close_dyn_buf s

/-- The S3 scenario with each payload flushed to the packet sink before the
next write (as packetised users do to delimit packets). -/
def dynScenarioFlush : List Nat × Int :=
  let s := open_dyn_packet_buf_ctx 1024
  let s := avio_write s [170, 187, 204]
  let s := avio_flush s
  let s := avio_write s [221]
  avio_close_dyn_buf s

/-- A write stream whose `write_packet` always fails with -1. -/
def cexWpFail : AVIOContext Unit :=
  ffio_init_context [] 16 true () none (some (fun u _ => (-1, u))) none

/-- Two one-byte writes, each flushed. -/
def cexWpFailOps : List WriteOp := [.w8 170, .flush, .w8 187, .flush]

/-- A `read_packet` that always reports end of stream (returns 0). -/
def eofRp : Unit → Nat → Int × List Nat × Unit := fun u _ => (0, [], u)

/-- A read stream with a probing-sized buffer (40000 > 32768) holding the
absolute range [0, 10) with 5 bytes consumed. -/
def bigReadCtx : AVIOContext Unit :=
  { ffio_init_context (List.replicate 40000 0) 40000 false () (some eofRp) none none with
    buf_ptr := 5, buf_end := 10, pos := 10 }

/-- The same stream state with a normally sized (16-byte) buffer. -/
def smallReadCtx : AVIOContext Unit :=
  { ffio_init_context (List.replicate 16 0) 16 false () (some eofRp) none none with
    buf_ptr := 5, buf_end := 10, pos := 10 }

/-- A registry whose first descriptor is nested-capable "rtmp" and whose
second is plain "rtmp+http". -/
def cexRegistry : List URLProtocol :=
  [{ name := String.toList "rtmp", flags := 1 },
   { name := String.toList "rtmp+http", flags := 0 }]

/-- A URL whose scheme is exactly the name of the second descriptor. -/
def cexFilename : List Char := String.toList "rtmp+http://host/x"

/-! ### General lemmas -/

theorem lor_shiftLeft_eq_add {a : Nat} (b n : Nat) (h : a < 2 ^ n) :
    a ||| b <<< n = a + 2 ^ n * b := by
  rw [Nat.shiftLeft_eq, Nat.mul_comm b (2 ^ n), Nat.lor_comm, ← Nat.mul_add_lt_is_or h,
    Nat.add_comm]

/-! ### C10 -/

/-- C10: `avio_seek` with offset 0 and whence `SEEK_CUR` is a pure position
query: it returns `pos - (write_flag ? 0 : buf_end - buffer) + (buf_ptr -
buffer)` and returns the stream unchanged — no callback runs, `buf_ptr` does
not move, and `eof_reached` is not cleared. -/
theorem seek_cur_zero_pure {σ : Type} (s : AVIOContext σ) (fuel : Nat) :
    avio_seek fuel s 0 SEEK_CUR =
      (s.pos - (if s.write_flag then 0 else (s.buf_end : Int)) + (s.buf_ptr : Int), s) := by
  rfl

/-! ### C7 -/

/-- C7 counterexample: `avio_seek` with whence `SEEK_END` (= 2) is rejected
as an invalid whence, contradicting the claim that only values outside
{SET, CUR, END} fail with Invalid. -/
theorem seek_end_rejected_counterexample :
    avio_seek 0 (readLiteral [7]) 0 SEEK_END = (AVERROR_EINVAL, readLiteral [7]) := by
  rfl

/-- C7 amended: `avio_seek` strips the FORCE bit and fails with Invalid for
every whence value other than `SEEK_SET` and `SEEK_CUR`; in particular
`SEEK_END`, with or without FORCE, is rejected (the `whence != SEEK_END`
test inside the forward-skip condition is unreachable). -/
theorem seek_whence_invalid {σ : Type} (s : AVIOContext σ) (fuel : Nat) (offset : Int)
    (whence : Nat) (h1 : whence &&& 4294836223 ≠ SEEK_CUR)
    (h2 : whence &&& 4294836223 ≠ SEEK_SET) :
    avio_seek fuel s offset whence = (AVERROR_EINVAL, s) := by
  rw [avio_seek]
  simp only [if_pos (And.intro h1 h2)]

theorem seek_whence_invalid_witness :
    ((2 &&& 4294836223 ≠ SEEK_CUR) ∧ (2 &&& 4294836223 ≠ SEEK_SET)) ∧
    avio_seek 3 (readLiteral [1, 2]) 5 2 = (AVERROR_EINVAL, readLiteral [1, 2]) :=
  ⟨⟨by decide, by decide⟩,
   seek_whence_invalid (readLiteral [1, 2]) 3 5 2 (by decide) (by decide)⟩

/-! ### C8 -/

/-- C8: `ffurl_write` fails with Io when the handle lacks the write
direction; fails with Io when `max_packet_size > 0` and the size exceeds it;
and only otherwise enters the retry transfer loop. -/
theorem ffurl_write_preconditions (h : URLContext) (size : Nat) (outcomes : List Int)
    (clock : Nat → Int) (intr : Nat → Bool) :
    (h.flags &&& AVIO_FLAG_WRITE = 0 →
      ffurl_write h size outcomes clock intr = .failed AVERROR_EIO) ∧
    (h.max_packet_size ≠ 0 → h.max_packet_size < size →
      ffurl_write h size outcomes clock intr = .failed AVERROR_EIO) ∧
    (h.flags &&& AVIO_FLAG_WRITE ≠ 0 → (h.max_packet_size = 0 ∨ size ≤ h.max_packet_size) →
      ∃ st, ffurl_write h size outcomes clock intr = .transferred st) := by
  refine ⟨fun h1 => ?_, fun h1 h2 => ?_, fun h1 h2 => ?_⟩
  · simp [ffurl_write, h1]
  · rw [ffurl_write]
    by_cases h3 : h.flags &&& AVIO_FLAG_WRITE = 0
    · simp [h3]
    · simp [h3, h1, h2]
  · have h3 : ¬(h.max_packet_size ≠ 0 ∧ h.max_packet_size < size) := by
      rcases h2 with h2 | h2 <;> omega
    rw [ffurl_write, if_neg h1, if_neg h3]
    exact ⟨_, rfl⟩

theorem ffurl_write_preconditions_witness :
    (ffurl_write { flags := 1, max_packet_size := 0, rw_timeout := 0 } 4 []
        (fun _ => 0) (fun _ => false) = .failed AVERROR_EIO) ∧
    (ffurl_write { flags := 3, max_packet_size := 2, rw_timeout := 0 } 4 []
        (fun _ => 0) (fun _ => false) = .failed AVERROR_EIO) ∧
    (∃ st, ffurl_write { flags := 2, max_packet_size := 8, rw_timeout := 0 } 4 []
        (fun _ => 0) (fun _ => false) = .transferred st) :=
  ⟨(ffurl_write_preconditions _ 4 [] _ _).1 (by decide),
   (ffurl_write_preconditions _ 4 [] _ _).2.1 (by decide) (by decide),
   (ffurl_write_preconditions _ 4 [] _ _).2.2 (by decide) (Or.inr (by decide))⟩

/-! ### C2 counterexample -/

/-- C2 counterexample: with a `write_packet` that fails on the first call,
two flushed one-byte writes leave `pos = 2` while only 1 byte was ever handed
to `write_packet` (the second flush was suppressed by the latched error), so
`pos` does not equal the bytes handed to the callback. -/
theorem write_pos_handed_counterexample :
    (runWriteOps cexWpFail cexWpFailOps).pos = 2 ∧
    (runWriteOps cexWpFail cexWpFailOps).handed = 1 ∧
    (runWriteOps cexWpFail cexWpFailOps).error ≠ 0 := by
  refine ⟨by decide, by decide, by decide⟩

/-! ### C5 counterexample -/

/-- C5 counterexample: the registry holds a nested-capable "rtmp" before a
plain "rtmp+http"; for a URL with scheme "rtmp+http" the dispatcher returns
the *first* descriptor via its nested match even though a later descriptor's
name equals the scheme exactly — the exact-name rule does not take priority
over the whole registry. -/
theorem dispatch_order_counterexample :
    ffurl_alloc_protocol cexRegistry cexFilename =
      Except.ok { name := String.toList "rtmp", flags := 1 } ∧
    (String.toList "rtmp+http") = extractScheme cexFilename ∧
    ({ name := String.toList "rtmp+http", flags := 0 } : URLProtocol) ∈ cexRegistry ∧
    (String.toList "rtmp") ≠ extractScheme cexFilename := by
  refine ⟨by rfl, by decide, by decide, by decide⟩

/-! ### C5 amended -/

theorem ffurl_find_protocol_loop_eq (a b : List Char) (ps : List URLProtocol) :
    ffurl_find_protocol_loop a b ps =
      ps.find? (fun up => decide (up.name = a ∨
        up.flags &&& URL_PROTOCOL_FLAG_NESTED_SCHEME ≠ 0 ∧ up.name = b)) := by
  induction ps with
  | nil => rfl
  | cons up rest ih =>
    rw [ffurl_find_protocol_loop, List.find?_cons]
    by_cases h1 : up.name = a
    · simp [h1]
    · by_cases h2 : up.flags &&& URL_PROTOCOL_FLAG_NESTED_SCHEME ≠ 0 ∧ up.name = b
      · simp [h1, h2]
      · simp [h1, h2, ih]

/-- C5 amended: the dispatcher makes a single pass over the registry and, at
each descriptor in registration order, accepts it if its name equals the
scheme or if it is nested-capable and its name equals the nested scheme
(so a nested match early in the registry wins over an exact match later);
only when no descriptor matches either way does it fail with
ProtocolNotFound. -/
theorem dispatch_single_pass (ps : List URLProtocol) (fn : List Char) :
    ffurl_alloc_protocol ps fn =
      match ps.find? (fun up => decide (up.name = extractScheme fn ∨
          up.flags &&& URL_PROTOCOL_FLAG_NESTED_SCHEME ≠ 0 ∧ up.name = nestedScheme fn)) with
      | some up => Except.ok up
      | none => Except.error AVERROR_PROTOCOL_NOT_FOUND := by
  rw [ffurl_alloc_protocol, ffurl_find_protocol_loop_eq]

/-! ### C2 amended -/

theorem wstep_of_fields {s t : AVIOContext σ} (h1 : t.write_packet = s.write_packet)
    (h2 : t.pos = s.pos) (h3 : t.emitted = s.emitted) (h4 : t.error = s.error)
    (h5 : t.handed = s.handed) : WStep s t := by
  refine ⟨h1, by rw [h2, h3], fun _ hc he => ?_⟩
  rw [h3, h5]
  exact hc (by rw [← h4, he])

theorem wstep_refl (s : AVIOContext σ) : WStep s s :=
  wstep_of_fields rfl rfl rfl rfl rfl

theorem wstep_trans {s t u : AVIOContext σ} (h1 : WStep s t) (h2 : WStep t u) : WStep s u := by
  obtain ⟨e1, p1, c1⟩ := h1
  obtain ⟨e2, p2, c2⟩ := h2
  refine ⟨e2.trans e1, p2.trans p1, fun hw hc => ?_⟩
  exact c2 (by rw [e1]; exact hw) (c1 hw hc)

theorem writeout_fields (s : AVIOContext σ) (d : List Nat) :
    (writeout s d).write_packet = s.write_packet ∧
    (writeout s d).pos = s.pos + d.length ∧
    (writeout s d).emitted = s.emitted + d.length := by
  cases hw : s.write_packet
  · simp [writeout, hw]
  · simp only [writeout, hw]
    split_ifs <;> simp [hw]

theorem writeout_coh (s : AVIOContext σ) (d : List Nat) (hwp : s.write_packet.isSome)
    (hc : s.error = 0 → s.handed = s.emitted) (he : (writeout s d).error = 0) :
    (writeout s d).handed = (writeout s d).emitted := by
  cases hw : s.write_packet with
  | none => rw [hw] at hwp; simp at hwp
  | some wp =>
    by_cases h0 : s.error = 0
    · simp only [writeout, hw, if_pos h0] at he ⊢
      by_cases hr : (wp s.cookie d).1 < 0
      · simp only [if_pos hr] at he
        omega
      · simp [hc h0]
    · simp only [writeout, hw, if_neg h0] at he ⊢
      exact absurd he h0

theorem writeout_wstep (s : AVIOContext σ) (d : List Nat) : WStep s (writeout s d) := by
  obtain ⟨h1, h2, h3⟩ := writeout_fields s d
  exact ⟨h1, by rw [h2, h3]; push_cast; ring, fun hwp hc he => writeout_coh s d hwp hc he⟩

theorem flush_checksum_wstep (s1 : AVIOContext σ) :
    WStep s1 (match s1.update_checksum with
      | some f =>
        { s1 with
            checksum := f s1.checksum ((s1.buffer.take s1.buf_ptr).drop s1.checksum_ptr)
            checksum_ptr := 0 }
      | none => s1) := by
  cases hu : s1.update_checksum with
  | none => exact wstep_refl s1
  | some f => exact wstep_of_fields rfl rfl rfl rfl rfl

theorem flush_buffer_wstep (s : AVIOContext σ) : WStep s (flush_buffer s) := by
  have hstep : ∀ t : AVIOContext σ, WStep t { t with buf_ptr := 0 } :=
    fun t => wstep_of_fields rfl rfl rfl rfl rfl
  rw [flush_buffer]
  by_cases h : 0 < s.buf_ptr
  · simp only [if_pos h]
    exact wstep_trans (wstep_trans (writeout_wstep s _) (flush_checksum_wstep _)) (hstep _)
  · simp only [if_neg h]
    exact hstep s

theorem avio_w8_wstep (s : AVIOContext σ) (b : Nat) : WStep s (avio_w8 s b) := by
  rw [avio_w8]
  split
  · exact wstep_trans (wstep_of_fields rfl rfl rfl rfl rfl) (flush_buffer_wstep _)
  · exact wstep_of_fields rfl rfl rfl rfl rfl

theorem avio_flush_wstep (s : AVIOContext σ) : WStep s (avio_flush s) := by
  rw [avio_flush]
  exact wstep_trans (flush_buffer_wstep s) (wstep_of_fields rfl rfl rfl rfl rfl)

theorem avio_write_loop_wstep (fuel : Nat) :
    ∀ (s : AVIOContext σ) (buf : List Nat), WStep s (avio_write_loop fuel s buf) := by
  induction fuel with
  | zero => intro s buf; exact wstep_refl s
  | succ fuel ih =>
    intro s buf
    rw [avio_write_loop]
    split
    · refine wstep_trans ?_ (ih _ _)
      split
      · exact wstep_trans (wstep_of_fields rfl rfl rfl rfl rfl) (flush_buffer_wstep _)
      · exact wstep_of_fields rfl rfl rfl rfl rfl
    · exact wstep_refl s

theorem avio_write_wstep (s : AVIOContext σ) (buf : List Nat) : WStep s (avio_write s buf) := by
  rw [avio_write]
  split
  · exact wstep_trans (avio_flush_wstep s) (writeout_wstep _ _)
  · exact avio_write_loop_wstep _ s _

theorem runWriteOps_wstep : ∀ (ops : List WriteOp) (s : AVIOContext σ),
    WStep s (runWriteOps s ops) := by
  intro ops
  induction ops with
  | nil => intro s; exact wstep_refl s
  | cons op ops ih =>
    intro s
    rw [runWriteOps.eq_def]
    cases op with
    | w8 b => exact wstep_trans (avio_w8_wstep s b) (ih _)
    | write bs => exact wstep_trans (avio_write_wstep s bs) (ih _)
    | flush => exact wstep_trans (avio_flush_wstep s) (ih _)

/-- C2 amended: in write mode, after any sequence of `avio_w8`/`avio_write`
calls interleaved with flushes, `pos` has advanced exactly by the number of
bytes passed through `writeout` — each emitted byte advances `pos` by one
even under a latched error — and as long as no error has been latched this
also equals the number of bytes handed to `write_packet` (once an error is
latched, `writeout` suppresses the callback, so the bytes handed to it can
fall behind `pos`). -/
theorem write_pos_emitted_coherence (s : AVIOContext σ) (ops : List WriteOp)
    (hwp : s.write_packet.isSome) (hcoh : s.error = 0 → s.handed = s.emitted) :
    (runWriteOps s ops).pos - ((runWriteOps s ops).emitted : Int) = s.pos - (s.emitted : Int) ∧
    ((runWriteOps s ops).error = 0 →
      (runWriteOps s ops).handed = (runWriteOps s ops).emitted) := by
  obtain ⟨e, p, c⟩ := runWriteOps_wstep ops s
  exact ⟨p, c hwp hcoh⟩

theorem write_pos_emitted_coherence_witness :
    (cexWpFail.write_packet.isSome ∧ (cexWpFail.error = 0 → cexWpFail.handed = cexWpFail.emitted)) ∧
    (runWriteOps cexWpFail [WriteOp.w8 1, WriteOp.flush]).pos -
        ((runWriteOps cexWpFail [WriteOp.w8 1, WriteOp.flush]).emitted : Int) =
      cexWpFail.pos - (cexWpFail.emitted : Int) ∧
    ((runWriteOps cexWpFail [WriteOp.w8 1, WriteOp.flush]).error = 0 →
      (runWriteOps cexWpFail [WriteOp.w8 1, WriteOp.flush]).handed =
        (runWriteOps cexWpFail [WriteOp.w8 1, WriteOp.flush]).emitted) :=
  ⟨⟨by rfl, by decide⟩,
   (write_pos_emitted_coherence cexWpFail [WriteOp.w8 1, WriteOp.flush] (by rfl) (by decide)).1,
   (write_pos_emitted_coherence cexWpFail [WriteOp.w8 1, WriteOp.flush] (by rfl) (by decide)).2⟩

/-! ### C6 -/

theorem retryRun_stuck (p : RetryParams) (clock : Nat → Int) (intr : Nat → Bool)
    (rs : List Int) (st : RetrySt) (h : ¬(st.done.isNone ∧ st.len < p.size_min)) :
    retryRun p clock intr rs st = st := by
  cases rs with
  | nil => rfl
  | cons r rs => rw [retryRun, if_neg h]

theorem retryRun_append (p : RetryParams) (clock : Nat → Int) (intr : Nat → Bool)
    (xs ys : List Int) (st : RetrySt) :
    retryRun p clock intr (xs ++ ys) st = retryRun p clock intr ys (retryRun p clock intr xs st) := by
  induction xs generalizing st with
  | nil => rfl
  | cons x xs ih =>
    rw [List.cons_append, retryRun, retryRun]
    by_cases h : st.done.isNone ∧ st.len < p.size_min
    · rw [if_pos h, if_pos h, ih]
    · rw [if_neg h, if_neg h, retryRun_stuck p clock intr ys st h]

theorem retryStep_eagain_fast (p : RetryParams) (clock : Nat → Int) (hnb : p.nonblock = false)
    (st : RetrySt) (hdn : st.done = none) (hfr : st.fast_retries ≠ 0) :
    retryStep p clock (fun _ => false) st AVERROR_EAGAIN =
      { st with fast_retries := st.fast_retries - 1, intr_calls := st.intr_calls + 1 } := by
  obtain ⟨len, fr, ws, dn, sl, gc, ic⟩ := st
  simp only at hdn hfr
  subst hdn
  simp [retryStep, retryInterrupt, hnb, hfr, AVERROR_EAGAIN, AVERROR_EINTR]

theorem retryRun_eagain_fast (p : RetryParams) (clock : Nat → Int) (hnb : p.nonblock = false) :
    ∀ (j : Nat) (st : RetrySt), st.done = none → st.len < p.size_min → j ≤ st.fast_retries →
    retryRun p clock (fun _ => false) (List.replicate j AVERROR_EAGAIN) st =
      { st with fast_retries := st.fast_retries - j, intr_calls := st.intr_calls + j } := by
  intro j
  induction j with
  | zero =>
    intro st h1 h2 h3
    simp [List.replicate, retryRun]
  | succ j ih =>
    intro st h1 h2 h3
    obtain ⟨len, fr, ws, dn, sl, gc, ic⟩ := st
    simp only [] at h1 h2 h3
    subst h1
    rw [List.replicate_succ, retryRun, if_pos ⟨by simp, h2⟩,
      retryStep_eagain_fast p clock hnb _ rfl (by simp only []; omega)]
    rw [ih _ (by simp) (by simpa using h2) (by simp only []; omega)]
    simp only [RetrySt.mk.injEq, and_true, true_and]
    omega

theorem retryStep_eagain_sleep (p : RetryParams) (clock : Nat → Int) (hnb : p.nonblock = false)
    (st : RetrySt) (hdn : st.done = none) (hfr : st.fast_retries = 0) (hws : st.wait_since = 0) :
    (retryStep p clock (fun _ => false) st AVERROR_EAGAIN).sleeps = st.sleeps + 1 := by
  obtain ⟨len, fr, ws, dn, sl, gc, ic⟩ := st
  simp only at hdn hfr hws
  subst hdn; subst hfr; subst hws
  by_cases hrw : p.rw_timeout = 0
  · simp [retryStep, retryInterrupt, hnb, hrw, AVERROR_EAGAIN, AVERROR_EINTR]
  · simp [retryStep, retryInterrupt, hnb, hrw, AVERROR_EAGAIN, AVERROR_EINTR]

theorem retryInterrupt_sleeps (p : RetryParams) (intr : Nat → Bool) (st : RetrySt) :
    (retryInterrupt p intr st).sleeps = st.sleeps := by
  rw [retryInterrupt]
  split <;> rfl

theorem retryStep_sleeps_mono (p : RetryParams) (clock : Nat → Int) (intr : Nat → Bool)
    (st : RetrySt) (r : Int) : st.sleeps ≤ (retryStep p clock intr st r).sleeps := by
  rw [retryStep]
  split_ifs <;> simp_all [retryInterrupt_sleeps] <;> split_ifs <;>
    simp_all [retryInterrupt_sleeps]

theorem retryRun_sleeps_mono (p : RetryParams) (clock : Nat → Int) (intr : Nat → Bool) :
    ∀ (rs : List Int) (st : RetrySt), st.sleeps ≤ (retryRun p clock intr rs st).sleeps := by
  intro rs
  induction rs with
  | nil => intro st; exact Nat.le_refl _
  | cons r rs ih =>
    intro st
    rw [retryRun]
    split
    · exact Nat.le_trans (retryStep_sleeps_mono p clock intr st r) (ih _)
    · exact Nat.le_refl _

theorem retryInterrupt_fast_retries (p : RetryParams) (intr : Nat → Bool) (st : RetrySt) :
    (retryInterrupt p intr st).fast_retries = st.fast_retries := by
  rw [retryInterrupt]
  split <;> rfl

/-- C6: retry fairness.  On a blocking handle whose transfer callback keeps
returning `WouldBlock` (EAGAIN) and with no interrupt firing, at most 5 fast
retries occur before the first ~1ms sleep (5 EAGAIN results are absorbed
without sleeping, and from the 6th on at least one sleep has happened); and
any iteration that delivers at least one byte leaves the fast-retry budget at
2 or more. -/
theorem retry_fairness (rwT : Int) (clock : Nat → Int) (sz szMin k : Nat) (st : RetrySt)
    (r : Int) (hmin : 1 ≤ szMin) (hr : 1 ≤ r) :
    (k ≤ 5 →
      (retryRun { nonblock := false, rw_timeout := rwT, size := sz, size_min := szMin }
        clock (fun _ => false) (List.replicate k AVERROR_EAGAIN) retryInit).sleeps = 0) ∧
    (6 ≤ k →
      1 ≤ (retryRun { nonblock := false, rw_timeout := rwT, size := sz, size_min := szMin }
        clock (fun _ => false) (List.replicate k AVERROR_EAGAIN) retryInit).sleeps) ∧
    2 ≤ (retryStep { nonblock := false, rw_timeout := rwT, size := sz, size_min := szMin }
        clock (fun _ => false) st r).fast_retries := by
  refine ⟨?_, ?_, ?_⟩
  · intro hk
    rw [retryRun_eagain_fast _ clock rfl k retryInit rfl (by simpa [retryInit] using hmin)
      (by simpa [retryInit] using hk)]
    rfl
  · intro hk
    have h6 : k = 5 + 1 + (k - 6) := by omega
    rw [h6, List.replicate_add, List.replicate_add, retryRun_append, retryRun_append]
    rw [retryRun_eagain_fast _ clock rfl 5 retryInit rfl (by simpa [retryInit] using hmin)
      (by simp [retryInit])]
    set A : RetrySt :=
      { retryInit with fast_retries := retryInit.fast_retries - 5
                       intr_calls := retryInit.intr_calls + 5 } with hA
    rw [show List.replicate 1 AVERROR_EAGAIN = [AVERROR_EAGAIN] from rfl]
    rw [retryRun, if_pos ⟨by simp [hA, retryInit], by simpa [hA, retryInit] using hmin⟩,
      retryRun]
    have hstep : (retryStep { nonblock := false, rw_timeout := rwT, size := sz, size_min := szMin }
        clock (fun _ => false) A AVERROR_EAGAIN).sleeps = A.sleeps + 1 :=
      retryStep_eagain_sleep _ clock rfl A (by simp [hA, retryInit]) (by simp [hA, retryInit])
        (by simp [hA, retryInit])
    refine Nat.le_trans ?_ (retryRun_sleeps_mono _ clock _ _ _)
    rw [hstep]
    omega
  · have h1 : ¬(r = AVERROR_EINTR) := by simp only [AVERROR_EINTR]; omega
    have h2 : ¬(r = AVERROR_EAGAIN) := by simp only [AVERROR_EAGAIN]; omega
    have h3 : ¬(r < 1) := by omega
    rw [retryStep, if_neg h1]
    simp only [Bool.false_eq_true, if_false]
    rw [if_neg h2, if_neg h3, retryInterrupt_fast_retries]
    exact Nat.le_max_right _ 2

theorem retry_fairness_witness :
    (1 ≤ 1 ∧ 1 ≤ (1 : Int)) ∧
    ((7 ≤ 5 →
      (retryRun { nonblock := false, rw_timeout := 0, size := 4, size_min := 1 }
        (fun _ => 0) (fun _ => false) (List.replicate 7 AVERROR_EAGAIN) retryInit).sleeps = 0) ∧
    (6 ≤ 7 →
      1 ≤ (retryRun { nonblock := false, rw_timeout := 0, size := 4, size_min := 1 }
        (fun _ => 0) (fun _ => false) (List.replicate 7 AVERROR_EAGAIN) retryInit).sleeps) ∧
    2 ≤ (retryStep { nonblock := false, rw_timeout := 0, size := 4, size_min := 1 }
        (fun _ => 0) (fun _ => false) retryInit 1).fast_retries) :=
  ⟨⟨by decide, by decide⟩,
   retry_fairness 0 (fun _ => 0) 4 1 7 retryInit 1 (by decide) (by decide)⟩

/-! ### C9 -/

theorem overlay_append (l new : List Nat) : overlay l l.length new = l ++ new := by
  rw [overlay, List.takeD_eq_take _ (Nat.le_refl _), List.take_length,
    List.drop_eq_nil_of_le (by omega), List.append_nil]

theorem mod256_mod256 (n : Nat) : n % 256 % 256 = n % 256 :=
  Nat.mod_mod_of_dvd n (dvd_refl 256)

theorem dyn_buf_write_append (d : DynBuffer) (buf : List Nat) (hp : d.pos = d.buffer.length)
    (hs : d.size = d.pos) (hb : d.pos + buf.length ≤ 1073741823) :
    dyn_buf_write d buf =
      ((buf.length : Int),
       { pos := d.pos + buf.length
         size := d.pos + buf.length
         allocated_size := growAlloc (d.pos + buf.length) d.allocated_size
         buffer := d.buffer ++ buf.map (fun b => b % 256) }) := by
  obtain ⟨dp, ds, da, db⟩ := d
  simp only [] at hp hs hb
  subst hs
  subst hp
  rw [dyn_buf_write, if_neg (by simp only []; omega)]
  simp only [overlay_append]
  split_ifs with h
  · simp
  · simp only [] at h
    have hlen : buf.length = 0 := by omega
    have hnil : buf = [] := List.length_eq_zero.mp hlen
    subst hnil
    simp

theorem av_wb32_length (v : Nat) : (AV_WB32 v).length = 4 := rfl

theorem av_wb32_map_mod (v : Nat) : (AV_WB32 v).map (fun b => b % 256) = AV_WB32 v := by
  simp [AV_WB32, mod256_mod256]

theorem dyn_packet_buf_write_append (d : DynBuffer) (p : List Nat) (hp : d.pos = d.buffer.length)
    (hs : d.size = d.pos) (hb : d.pos + 4 + p.length ≤ 1073741823) :
    (dyn_packet_buf_write d p).2.buffer =
        d.buffer ++ AV_WB32 p.length ++ p.map (fun b => b % 256) ∧
    (dyn_packet_buf_write d p).2.pos = d.pos + 4 + p.length ∧
    (dyn_packet_buf_write d p).2.size = d.pos + 4 + p.length := by
  rw [dyn_packet_buf_write]
  have h1 := dyn_buf_write_append d (AV_WB32 p.length) hp hs
    (by rw [av_wb32_length]; omega)
  rw [h1]
  rw [if_neg (by rw [av_wb32_length]; omega)]
  have h2 := dyn_buf_write_append
    { pos := d.pos + (AV_WB32 p.length).length
      size := d.pos + (AV_WB32 p.length).length
      allocated_size := growAlloc (d.pos + (AV_WB32 p.length).length) d.allocated_size
      buffer := d.buffer ++ (AV_WB32 p.length).map (fun b => b % 256) } p
    (by simp [av_wb32_length, hp]) (by simp) (by simp only [av_wb32_length]; omega)
  rw [h2]
  simp [av_wb32_length, av_wb32_map_mod]

theorem packetStream_cons (p : List Nat) (ps : List (List Nat)) :
    packetStream (p :: ps) =
      (AV_WB32 p.length ++ p.map (fun b => b % 256)) ++ packetStream ps := by
  simp [packetStream]

theorem packetStream_cons_length (p : List Nat) (ps : List (List Nat)) :
    (packetStream (p :: ps)).length = 4 + p.length + (packetStream ps).length := by
  simp [packetStream_cons, av_wb32_length]
  omega

theorem dynPackets_buffer : ∀ (ps : List (List Nat)) (d : DynBuffer),
    d.pos = d.buffer.length → d.size = d.pos →
    d.pos + (packetStream ps).length ≤ 1073741823 →
    (dynPackets d ps).buffer = d.buffer ++ packetStream ps ∧
    (dynPackets d ps).pos = d.pos + (packetStream ps).length ∧
    (dynPackets d ps).size = (dynPackets d ps).pos := by
  intro ps
  induction ps with
  | nil =>
    intro d h1 h2 h3
    simp [dynPackets, packetStream, h2]
  | cons p ps ih =>
    intro d h1 h2 h3
    rw [packetStream_cons_length] at h3
    obtain ⟨hb, hpos, hsz⟩ := dyn_packet_buf_write_append d p h1 h2 (by omega)
    rw [dynPackets]
    obtain ⟨ihb, ihpos, ihsz⟩ := ih (dyn_packet_buf_write d p).2
      (by rw [hpos, hb]; simp [av_wb32_length, h1]; omega)
      (by rw [hpos, hsz])
      (by rw [hpos]; omega)
    refine ⟨?_, ?_, ihsz⟩
    · rw [ihb, hb, packetStream_cons]
      simp [List.append_assoc]
    · rw [ihpos, hpos, packetStream_cons_length]
      omega

/-- C9 counterexample: running the S3 scenario exactly as the claim words it
(open with `max_packet_size = 1024`, write `[0xAA,0xBB,0xCC]`, write
`[0xDD]`, close) yields a *single* packet `[0,0,0,4, AA,BB,CC,DD]`: the two
buffered writes coalesce in the stream buffer and reach
`dyn_packet_buf_write` as one chunk at close, so the claimed output
`[0,0,0,3, AA,BB,CC, 0,0,0,1, DD]` is not produced. -/
theorem packet_header_counterexample :
    dynScenarioNoFlush.1 = [0, 0, 0, 4, 170, 187, 204, 221] ∧
    dynScenarioNoFlush.1 ≠ [0, 0, 0, 3, 170, 187, 204, 0, 0, 0, 1, 221] := by
  refine ⟨by decide, by decide⟩

/-- C9 amended: each chunk that reaches the packet sink
(`dyn_packet_buf_write`) is stored preceded immediately by a 4-byte
big-endian header holding the chunk length, and no padding is appended at
close; the S3 scenario yields the claimed bytes when each payload is flushed
to the sink before the next write (write, flush, write, close). -/
theorem packet_framing_amended :
    (dynScenarioFlush.1 = [0, 0, 0, 3, 170, 187, 204, 0, 0, 0, 1, 221] ∧
      dynScenarioFlush.2 = 12) ∧
    (∀ (ps : List (List Nat)) (d : DynBuffer),
      d.pos = d.buffer.length → d.size = d.pos →
      d.pos + (packetStream ps).length ≤ 1073741823 →
      (dynPackets d ps).buffer = d.buffer ++ packetStream ps) := by
  refine ⟨⟨by decide, by decide⟩, fun ps d h1 h2 h3 => (dynPackets_buffer ps d h1 h2 h3).1⟩

theorem packet_framing_amended_witness :
    (dynPackets { pos := 0, size := 0, allocated_size := 0, buffer := [] } [[170, 187, 204], [221]]).buffer =
      [] ++ packetStream [[170, 187, 204], [221]] :=
  packet_framing_amended.2 [[170, 187, 204], [221]]
    { pos := 0, size := 0, allocated_size := 0, buffer := [] } (by decide) (by decide) (by decide)

/-! ### C4 -/

theorem avio_seek_in_buffer {σ : Type} (s : AVIOContext σ) (t : Int) (fuel : Nat)
    (hw : s.write_flag = false) (hmf : s.must_flush = false)
    (hd : s.direct = false ∨ s.seek.isNone) (hlo : s.pos - (s.buf_end : Int) ≤ t)
    (hhi : t ≤ s.pos) :
    avio_seek fuel s t SEEK_SET =
      (t, { s with buf_ptr := (t - (s.pos - (s.buf_end : Int))).toNat
                   eof_reached := false }) := by
  rw [avio_seek]
  rw [if_neg (show ¬(SEEK_SET &&& 4294836223 ≠ SEEK_CUR ∧ SEEK_SET &&& 4294836223 ≠ SEEK_SET)
    from by decide)]
  rw [if_neg (fun hc => absurd hc.1 (by decide))]
  rw [if_neg (show ¬(SEEK_SET &&& 4294836223 = SEEK_CUR) from by decide)]
  rw [hw]
  simp only [Bool.false_eq_true, if_false]
  rw [if_pos ⟨hmf, by simpa using hd, by omega, by omega⟩]

/-- C4: in read mode, when `must_flush` is unset, not both `direct` and a
seek callback are present, and the absolute target `t` lies in `[a, b]` for a
buffer holding `[a, b)` (`a = pos - (buf_end - buffer)`, `b = pos`),
`avio_seek` repositions `buf_ptr` inside the buffer (clearing only
`eof_reached` besides) and never invokes the transport seek callback, in
either direction. -/
theorem in_buffer_seek_no_transport {σ : Type} (s : AVIOContext σ) (t : Int) (fuel : Nat)
    (hw : s.write_flag = false) (hmf : s.must_flush = false)
    (hd : s.direct = false ∨ s.seek.isNone) (hlo : s.pos - (s.buf_end : Int) ≤ t)
    (hhi : t ≤ s.pos) :
    avio_seek fuel s t SEEK_SET =
      (t, { s with buf_ptr := (t - (s.pos - (s.buf_end : Int))).toNat
                   eof_reached := false }) ∧
    (avio_seek fuel s t SEEK_SET).2.transport_seeks = s.transport_seeks := by
  have h := avio_seek_in_buffer s t fuel hw hmf hd hlo hhi
  exact ⟨h, by rw [h]⟩

theorem in_buffer_seek_no_transport_witness :
    avio_seek 0 (readLiteral [10, 20, 30]) 1 SEEK_SET =
      (1, { readLiteral [10, 20, 30] with
              buf_ptr := ((1 : Int) -
                ((readLiteral [10, 20, 30]).pos -
                  ((readLiteral [10, 20, 30]).buf_end : Int))).toNat
              eof_reached := false }) ∧
    (avio_seek 0 (readLiteral [10, 20, 30]) 1 SEEK_SET).2.transport_seeks =
      (readLiteral [10, 20, 30]).transport_seeks :=
  in_buffer_seek_no_transport (readLiteral [10, 20, 30]) 1 0 (by rfl) (by rfl)
    (Or.inr (by rfl)) (by decide) (by decide)

/-! ### C3 -/

/-- C3 counterexample: on a stream whose probing-sized buffer (40000 bytes >
32768) holds `[0, 10)` with the cursor at 5, a `read_packet` returning 0
during `fill_buffer` does NOT leave `buf_ptr`/`buf_end` unchanged: the
buffer-shrink step (`ffio_set_buf_size`) runs before `read_packet` and resets
both to 0, discarding the buffered bytes. -/
theorem fill_buffer_shrink_counterexample :
    (fill_buffer bigReadCtx).buf_ptr = 0 ∧ (fill_buffer bigReadCtx).buf_end = 0 ∧
    (fill_buffer bigReadCtx).eof_reached = true ∧
    bigReadCtx.buf_ptr = 5 ∧ bigReadCtx.buf_end = 10 := by
  refine ⟨by decide, by decide, by decide, by decide, by decide⟩

theorem fill_buffer_eof_fields {σ : Type} (s : AVIOContext σ)
    (rp : σ → Nat → Int × List Nat × σ) (hrp : s.read_packet = some rp)
    (hret1 : (rp s.cookie (fill_buffer_len s)).1 ≤ 0)
    (hsz : s.buffer_size ≤ (if s.max_packet_size ≠ 0 then s.max_packet_size else IO_BUFFER_SIZE))
    (heof : s.eof_reached = false) :
    (fill_buffer s).buf_ptr = s.buf_ptr ∧
    (fill_buffer s).buf_end = s.buf_end ∧
    (fill_buffer s).eof_reached = true ∧
    (fill_buffer s).error = (if (rp s.cookie (fill_buffer_len s)).1 < 0
      then (rp s.cookie (fill_buffer_len s)).1 else s.error) ∧
    (fill_buffer s).pos = s.pos ∧
    (fill_buffer s).write_flag = s.write_flag ∧
    (fill_buffer s).must_flush = s.must_flush ∧
    (fill_buffer s).direct = s.direct ∧
    (fill_buffer s).seek = s.seek ∧
    (fill_buffer s).transport_seeks = s.transport_seeks := by
  have hlt : ¬((if s.max_packet_size ≠ 0 then s.max_packet_size else IO_BUFFER_SIZE) <
      s.buffer_size) := by omega
  have hlt2 : ¬((if s.max_packet_size = 0 then IO_BUFFER_SIZE else s.max_packet_size) <
      s.buffer_size) := by
    by_cases hmp : s.max_packet_size = 0 <;> simp [hmp] at hsz ⊢ <;> omega
  cases hu : s.update_checksum with
  | none => simp [fill_buffer, hrp, heof, hlt, hlt2, hret1, hu]
  | some f =>
    by_cases hdst : fill_buffer_dst s = 0
    · by_cases hck : s.checksum_ptr < s.buf_end
      · simp [fill_buffer, hrp, heof, hlt, hlt2, hret1, hu, hdst, hck]
      · simp [fill_buffer, hrp, heof, hlt, hlt2, hret1, hu, hdst, hck]
    · simp [fill_buffer, hrp, heof, hlt, hlt2, hret1, hu, hdst]

/-- C3 amended: provided the buffer-shrink step does not apply (the buffer is
no larger than `max(max_packet_size, 32768)`), a `read_packet` return of at
most 0 during `fill_buffer` sets `eof_reached` (latching `error` when the
return is negative) and leaves `buf_ptr` and `buf_end` unchanged, so that a
subsequent backward seek into the still-buffered absolute range
`[pos - (buf_end - buffer), pos]` (with `must_flush` unset and not both
`direct` and a seek callback present) succeeds without a transport seek
call. -/
theorem fill_buffer_eof_nondestructive {σ : Type} (s : AVIOContext σ)
    (rp : σ → Nat → Int × List Nat × σ) (hrp : s.read_packet = some rp)
    (hret : ∀ n, (rp s.cookie n).1 ≤ 0)
    (hsz : s.buffer_size ≤ (if s.max_packet_size ≠ 0 then s.max_packet_size else IO_BUFFER_SIZE))
    (heof : s.eof_reached = false) :
    (fill_buffer s).buf_ptr = s.buf_ptr ∧
    (fill_buffer s).buf_end = s.buf_end ∧
    (fill_buffer s).eof_reached = true ∧
    (fill_buffer s).error = (if (rp s.cookie (fill_buffer_len s)).1 < 0
      then (rp s.cookie (fill_buffer_len s)).1 else s.error) ∧
    (∀ (t : Int) (fuel : Nat), s.write_flag = false → s.must_flush = false →
      (s.direct = false ∨ s.seek.isNone) →
      s.pos - (s.buf_end : Int) ≤ t → t ≤ s.pos →
      (avio_seek fuel (fill_buffer s) t SEEK_SET).1 = t ∧
      (avio_seek fuel (fill_buffer s) t SEEK_SET).2.transport_seeks = s.transport_seeks) := by
  obtain ⟨f1, f2, f3, f4, f5, f6, f7, f8, f9, f10⟩ :=
    fill_buffer_eof_fields s rp hrp (hret _) hsz heof
  refine ⟨f1, f2, f3, f4, fun t fuel hw hmf hd hlo hhi => ?_⟩
  have h := avio_seek_in_buffer (fill_buffer s) t fuel (by rw [f6, hw]) (by rw [f7, hmf])
    (by rcases hd with h | h
        · exact Or.inl (by rw [f8, h])
        · exact Or.inr (by rw [f9]; exact h))
    (by rw [f5, f2]; exact hlo) (by rw [f5]; exact hhi)
  rw [h]
  exact ⟨rfl, f10⟩

theorem fill_buffer_eof_nondestructive_witness :
    ((fill_buffer smallReadCtx).buf_ptr = smallReadCtx.buf_ptr ∧
     (fill_buffer smallReadCtx).buf_end = smallReadCtx.buf_end ∧
     (fill_buffer smallReadCtx).eof_reached = true) ∧
    (avio_seek 0 (fill_buffer smallReadCtx) 7 SEEK_SET).1 = 7 ∧
    (avio_seek 0 (fill_buffer smallReadCtx) 7 SEEK_SET).2.transport_seeks =
      smallReadCtx.transport_seeks := by
  have h := fill_buffer_eof_nondestructive smallReadCtx eofRp (by rfl)
    (fun _ => Int.le_refl 0) (by decide) (by rfl)
  exact ⟨⟨h.1, h.2.1, h.2.2.1⟩,
    h.2.2.2.2 7 0 (by rfl) (by rfl) (Or.inl (by rfl)) (by decide) (by decide)⟩

/-! ### C1 -/

theorem wstate_def (bs : List Nat) :
    wstate bs =
      { cookie := (), read_packet := none, write_packet := none, seek := none
        update_checksum := none, checksum := 0, checksum_ptr := 0, buffer := bs
        buffer_size := 20, buf_ptr := bs.length, buf_end := 20, pos := 0, write_flag := true
        eof_reached := false, error := 0, must_flush := false, seekable := true, direct := false
        max_packet_size := 0, bytes_read := 0, seek_count := 0, handed := 0, emitted := 0
        transport_seeks := 0 } := rfl

theorem writeCtx_eq : writeCtx = wstate [] := rfl

theorem lit_def (bytes : List Nat) (p : Nat) :
    lit bytes p =
      { cookie := (), read_packet := none, write_packet := none, seek := none
        update_checksum := none, checksum := 0, checksum_ptr := 0, buffer := bytes
        buffer_size := bytes.length, buf_ptr := p, buf_end := bytes.length
        pos := (bytes.length : Int), write_flag := false, eof_reached := false, error := 0
        must_flush := false, seekable := true, direct := false, max_packet_size := 0
        bytes_read := 0, seek_count := 0, handed := 0, emitted := 0
        transport_seeks := 0 } := rfl

theorem readLiteral_eq (bytes : List Nat) : readLiteral bytes = lit bytes 0 := rfl

theorem avio_w8_wstate (bs : List Nat) (b : Nat) (h : bs.length + 1 < 20) :
    avio_w8 (wstate bs) b = wstate (bs ++ [b % 256]) := by
  rw [wstate_def, wstate_def, avio_w8]
  have h2 : ¬(20 ≤ bs.length + 1) := by omega
  simp [overlay_append, h2]

theorem writtenBytes_eq (enc : List Nat) (f : AVIOContext Unit → AVIOContext Unit)
    (hf : f (wstate []) = wstate enc) : writtenBytes f = enc := by
  have h1 : writtenBytes f = (f writeCtx).buffer.take (f writeCtx).buf_ptr := rfl
  rw [h1, writeCtx_eq, hf, wstate_def]
  simp [List.take_length]

theorem avio_r8_lit (bytes : List Nat) (p : Nat) (h : p + 1 ≤ bytes.length) :
    avio_r8 (lit bytes p) = (bytes.getD p 0, lit bytes (p + 1)) := by
  rw [lit_def bytes p, lit_def bytes (p + 1), avio_r8]
  have h1 : ¬(bytes.length ≤ p) := by omega
  have h2 : p < bytes.length := by omega
  simp [h1, h2]

theorem avio_wl16_wstate (bs : List Nat) (v : Nat) (h : bs.length + 2 < 20) :
    avio_wl16 (wstate bs) v = wstate (bs ++ [v % 256, (v >>> 8) % 256]) := by
  rw [avio_wl16, avio_w8_wstate _ _ (by omega),
    avio_w8_wstate _ _ (by simp only [List.length_append, List.length_cons, List.length_nil]; omega)]
  simp [mod256_mod256]

theorem lor_shl8 (a b : Nat) (h : a < 256) : a ||| b <<< 8 = a + 256 * b := by
  have h2 := lor_shiftLeft_eq_add b 8 (a := a) (by norm_num; omega)
  norm_num at h2
  exact h2

theorem lor_shl16 (a b : Nat) (h : a < 65536) : a ||| b <<< 16 = a + 65536 * b := by
  have h2 := lor_shiftLeft_eq_add b 16 (a := a) (by norm_num; omega)
  norm_num at h2
  exact h2

theorem lor_shl32 (a b : Nat) (h : a < 4294967296) : a ||| b <<< 32 = a + 4294967296 * b := by
  have h2 := lor_shiftLeft_eq_add b 32 (a := a) (by norm_num; omega)
  norm_num at h2
  exact h2

theorem roundtrip_rl16 (v : Nat) (hv : v < 65536) :
    (avio_rl16 (readLiteral (writtenBytes (fun s => avio_wl16 s v)))).1 = v := by
  rw [writtenBytes_eq [v % 256, (v >>> 8) % 256] _
    (by simpa using avio_wl16_wstate [] v (by simp))]
  rw [readLiteral_eq]
  simp only [avio_rl16]
  rw [avio_r8_lit _ _ (by simp)]
  simp only []
  rw [avio_r8_lit _ _ (by simp)]
  simp only [List.getD_cons_zero, List.getD_cons_succ]
  rw [lor_shl8 _ _ (by omega)]
  simp only [Nat.shiftRight_eq_div_pow]
  norm_num
  omega

theorem shl8_lor (a b : Nat) (h : b < 256) : a <<< 8 ||| b = b + 256 * a := by
  rw [Nat.lor_comm]
  exact lor_shl8 b a h

theorem shl16_lor (a b : Nat) (h : b < 65536) : a <<< 16 ||| b = b + 65536 * a := by
  rw [Nat.lor_comm]
  exact lor_shl16 b a h

theorem shl32_lor (a b : Nat) (h : b < 4294967296) : a <<< 32 ||| b = b + 4294967296 * a := by
  rw [Nat.lor_comm]
  exact lor_shl32 b a h

theorem len_lemma (bs : List Nat) (xs : List Nat) :
    (bs ++ xs).length = bs.length + xs.length := List.length_append bs xs

theorem avio_wb16_wstate (bs : List Nat) (v : Nat) (h : bs.length + 2 < 20) :
    avio_wb16 (wstate bs) v = wstate (bs ++ [(v >>> 8) % 256, v % 256]) := by
  rw [avio_wb16, avio_w8_wstate _ _ (by omega),
    avio_w8_wstate _ _ (by simp only [len_lemma, List.length_cons, List.length_nil]; omega)]
  simp [mod256_mod256]

theorem avio_wl24_wstate (bs : List Nat) (v : Nat) (h : bs.length + 3 < 20) :
    avio_wl24 (wstate bs) v =
      wstate (bs ++ [(v &&& 65535) % 256, ((v &&& 65535) >>> 8) % 256, (v >>> 16) % 256]) := by
  rw [avio_wl24, avio_wl16_wstate _ _ (by omega),
    avio_w8_wstate _ _ (by simp only [len_lemma, List.length_cons, List.length_nil]; omega)]
  simp

theorem avio_wb24_wstate (bs : List Nat) (v : Nat) (h : bs.length + 3 < 20) :
    avio_wb24 (wstate bs) v =
      wstate (bs ++ [((v >>> 8) >>> 8) % 256, (v >>> 8) % 256, v % 256]) := by
  rw [avio_wb24, avio_wb16_wstate _ _ (by omega),
    avio_w8_wstate _ _ (by simp only [len_lemma, List.length_cons, List.length_nil]; omega)]
  simp [mod256_mod256]

theorem avio_wl32_wstate (bs : List Nat) (v : Nat) (h : bs.length + 4 < 20) :
    avio_wl32 (wstate bs) v =
      wstate (bs ++ [v % 256, (v >>> 8) % 256, (v >>> 16) % 256, (v >>> 24) % 256]) := by
  rw [avio_wl32, avio_w8_wstate _ _ (by omega),
    avio_w8_wstate _ _ (by simp only [len_lemma, List.length_cons, List.length_nil]; omega),
    avio_w8_wstate _ _ (by simp only [len_lemma, List.length_cons, List.length_nil]; omega),
    avio_w8_wstate _ _ (by simp only [len_lemma, List.length_cons, List.length_nil]; omega)]
  simp [mod256_mod256]

theorem avio_wb32_wstate (bs : List Nat) (v : Nat) (h : bs.length + 4 < 20) :
    avio_wb32 (wstate bs) v =
      wstate (bs ++ [(v >>> 24) % 256, (v >>> 16) % 256, (v >>> 8) % 256, v % 256]) := by
  rw [avio_wb32, avio_w8_wstate _ _ (by omega),
    avio_w8_wstate _ _ (by simp only [len_lemma, List.length_cons, List.length_nil]; omega),
    avio_w8_wstate _ _ (by simp only [len_lemma, List.length_cons, List.length_nil]; omega),
    avio_w8_wstate _ _ (by simp only [len_lemma, List.length_cons, List.length_nil]; omega)]
  simp [mod256_mod256]

theorem avio_wl64_wstate (bs : List Nat) (v : Nat) (h : bs.length + 8 < 20) :
    avio_wl64 (wstate bs) v =
      wstate (bs ++ [(v &&& 4294967295) % 256, ((v &&& 4294967295) >>> 8) % 256,
        ((v &&& 4294967295) >>> 16) % 256, ((v &&& 4294967295) >>> 24) % 256,
        (v >>> 32) % 256, ((v >>> 32) >>> 8) % 256,
        ((v >>> 32) >>> 16) % 256, ((v >>> 32) >>> 24) % 256]) := by
  rw [avio_wl64, avio_wl32_wstate _ _ (by omega),
    avio_wl32_wstate _ _ (by simp only [len_lemma, List.length_cons, List.length_nil]; omega)]
  simp

theorem avio_wb64_wstate (bs : List Nat) (v : Nat) (h : bs.length + 8 < 20) :
    avio_wb64 (wstate bs) v =
      wstate (bs ++ [((v >>> 32) >>> 24) % 256, ((v >>> 32) >>> 16) % 256,
        ((v >>> 32) >>> 8) % 256, (v >>> 32) % 256,
        ((v &&& 4294967295) >>> 24) % 256, ((v &&& 4294967295) >>> 16) % 256,
        ((v &&& 4294967295) >>> 8) % 256, (v &&& 4294967295) % 256]) := by
  rw [avio_wb64, avio_wb32_wstate _ _ (by omega),
    avio_wb32_wstate _ _ (by simp only [len_lemma, List.length_cons, List.length_nil]; omega)]
  simp

theorem mask16_eq (v : Nat) : v &&& 65535 = v % 65536 := by
  have h := Nat.and_pow_two_sub_one_eq_mod v 16
  norm_num at h
  exact h

theorem mask32_eq (v : Nat) : v &&& 4294967295 = v % 4294967296 := by
  have h := Nat.and_pow_two_sub_one_eq_mod v 32
  norm_num at h
  exact h

theorem roundtrip_rb16 (v : Nat) (hv : v < 65536) :
    (avio_rb16 (readLiteral (writtenBytes (fun s => avio_wb16 s v)))).1 = v := by
  rw [writtenBytes_eq [(v >>> 8) % 256, v % 256] _
    (by simpa using avio_wb16_wstate [] v (by simp))]
  rw [readLiteral_eq]
  simp only [avio_rb16]
  rw [avio_r8_lit _ _ (by simp)]
  simp only []
  rw [avio_r8_lit _ _ (by simp)]
  simp only [List.getD_cons_zero, List.getD_cons_succ]
  rw [shl8_lor _ _ (by omega)]
  simp only [Nat.shiftRight_eq_div_pow]
  norm_num
  omega

theorem roundtrip_rl24 (v : Nat) (hv : v < 16777216) :
    (avio_rl24 (readLiteral (writtenBytes (fun s => avio_wl24 s v)))).1 = v := by
  rw [writtenBytes_eq [(v &&& 65535) % 256, ((v &&& 65535) >>> 8) % 256, (v >>> 16) % 256] _
    (by simpa using avio_wl24_wstate [] v (by simp))]
  rw [readLiteral_eq]
  simp only [avio_rl24, avio_rl16]
  rw [avio_r8_lit _ _ (by simp)]
  simp only []
  rw [avio_r8_lit _ _ (by simp)]
  simp only []
  rw [avio_r8_lit _ _ (by simp)]
  simp only [List.getD_cons_zero, List.getD_cons_succ]
  rw [mask16_eq]
  rw [lor_shl8 _ _ (by omega)]
  rw [lor_shl16 _ _ (by omega)]
  simp only [Nat.shiftRight_eq_div_pow]
  norm_num
  omega

theorem roundtrip_rb24 (v : Nat) (hv : v < 16777216) :
    (avio_rb24 (readLiteral (writtenBytes (fun s => avio_wb24 s v)))).1 = v := by
  rw [writtenBytes_eq [((v >>> 8) >>> 8) % 256, (v >>> 8) % 256, v % 256] _
    (by simpa using avio_wb24_wstate [] v (by simp))]
  rw [readLiteral_eq]
  simp only [avio_rb24, avio_rb16]
  rw [avio_r8_lit _ _ (by simp)]
  simp only []
  rw [avio_r8_lit _ _ (by simp)]
  simp only []
  rw [avio_r8_lit _ _ (by simp)]
  simp only [List.getD_cons_zero, List.getD_cons_succ]
  rw [shl8_lor _ _ (by omega)]
  rw [shl8_lor _ _ (by omega)]
  simp only [Nat.shiftRight_eq_div_pow]
  norm_num
  omega

theorem roundtrip_rl32 (v : Nat) (hv : v < 4294967296) :
    (avio_rl32 (readLiteral (writtenBytes (fun s => avio_wl32 s v)))).1 = v := by
  rw [writtenBytes_eq [v % 256, (v >>> 8) % 256, (v >>> 16) % 256, (v >>> 24) % 256] _
    (by simpa using avio_wl32_wstate [] v (by simp))]
  rw [readLiteral_eq]
  simp only [avio_rl32, avio_rl16]
  rw [avio_r8_lit _ _ (by simp)]
  simp only []
  rw [avio_r8_lit _ _ (by simp)]
  simp only []
  rw [avio_r8_lit _ _ (by simp)]
  simp only []
  rw [avio_r8_lit _ _ (by simp)]
  simp only [List.getD_cons_zero, List.getD_cons_succ]
  rw [lor_shl8 _ _ (by omega)]
  rw [lor_shl8 _ _ (by omega)]
  rw [lor_shl16 _ _ (by omega)]
  simp only [Nat.shiftRight_eq_div_pow]
  norm_num
  omega

theorem roundtrip_rb32 (v : Nat) (hv : v < 4294967296) :
    (avio_rb32 (readLiteral (writtenBytes (fun s => avio_wb32 s v)))).1 = v := by
  rw [writtenBytes_eq [(v >>> 24) % 256, (v >>> 16) % 256, (v >>> 8) % 256, v % 256] _
    (by simpa using avio_wb32_wstate [] v (by simp))]
  rw [readLiteral_eq]
  simp only [avio_rb32, avio_rb16]
  rw [avio_r8_lit _ _ (by simp)]
  simp only []
  rw [avio_r8_lit _ _ (by simp)]
  simp only []
  rw [avio_r8_lit _ _ (by simp)]
  simp only []
  rw [avio_r8_lit _ _ (by simp)]
  simp only [List.getD_cons_zero, List.getD_cons_succ]
  rw [shl8_lor _ _ (by omega)]
  rw [shl8_lor _ _ (by omega)]
  rw [shl16_lor _ _ (by omega)]
  simp only [Nat.shiftRight_eq_div_pow]
  norm_num
  omega

theorem roundtrip_rl64 (v : Nat) (hv : v < 18446744073709551616) :
    (avio_rl64 (readLiteral (writtenBytes (fun s => avio_wl64 s v)))).1 = v := by
  rw [writtenBytes_eq [(v &&& 4294967295) % 256, ((v &&& 4294967295) >>> 8) % 256,
      ((v &&& 4294967295) >>> 16) % 256, ((v &&& 4294967295) >>> 24) % 256,
      (v >>> 32) % 256, ((v >>> 32) >>> 8) % 256,
      ((v >>> 32) >>> 16) % 256, ((v >>> 32) >>> 24) % 256] _
    (by simpa using avio_wl64_wstate [] v (by simp))]
  rw [readLiteral_eq]
  simp only [avio_rl64, avio_rl32, avio_rl16]
  rw [avio_r8_lit _ _ (by simp)]
  simp only []
  rw [avio_r8_lit _ _ (by simp)]
  simp only []
  rw [avio_r8_lit _ _ (by simp)]
  simp only []
  rw [avio_r8_lit _ _ (by simp)]
  simp only []
  rw [avio_r8_lit _ _ (by simp)]
  simp only []
  rw [avio_r8_lit _ _ (by simp)]
  simp only []
  rw [avio_r8_lit _ _ (by simp)]
  simp only []
  rw [avio_r8_lit _ _ (by simp)]
  simp only [List.getD_cons_zero, List.getD_cons_succ]
  rw [mask32_eq]
  rw [lor_shl8 _ _ (by omega)]
  rw [lor_shl8 _ _ (by omega)]
  rw [lor_shl8 _ _ (by omega)]
  rw [lor_shl8 _ _ (by omega)]
  rw [lor_shl16 _ _ (by omega)]
  rw [lor_shl16 _ _ (by omega)]
  rw [lor_shl32 _ _ (by omega)]
  simp only [Nat.shiftRight_eq_div_pow]
  norm_num
  omega

theorem roundtrip_rb64 (v : Nat) (hv : v < 18446744073709551616) :
    (avio_rb64 (readLiteral (writtenBytes (fun s => avio_wb64 s v)))).1 = v := by
  rw [writtenBytes_eq [((v >>> 32) >>> 24) % 256, ((v >>> 32) >>> 16) % 256,
      ((v >>> 32) >>> 8) % 256, (v >>> 32) % 256,
      ((v &&& 4294967295) >>> 24) % 256, ((v &&& 4294967295) >>> 16) % 256,
      ((v &&& 4294967295) >>> 8) % 256, (v &&& 4294967295) % 256] _
    (by simpa using avio_wb64_wstate [] v (by simp))]
  rw [readLiteral_eq]
  simp only [avio_rb64, avio_rb32, avio_rb16]
  rw [avio_r8_lit _ _ (by simp)]
  simp only []
  rw [avio_r8_lit _ _ (by simp)]
  simp only []
  rw [avio_r8_lit _ _ (by simp)]
  simp only []
  rw [avio_r8_lit _ _ (by simp)]
  simp only []
  rw [avio_r8_lit _ _ (by simp)]
  simp only []
  rw [avio_r8_lit _ _ (by simp)]
  simp only []
  rw [avio_r8_lit _ _ (by simp)]
  simp only []
  rw [avio_r8_lit _ _ (by simp)]
  simp only [List.getD_cons_zero, List.getD_cons_succ]
  rw [mask32_eq]
  rw [shl8_lor _ _ (by omega)]
  rw [shl8_lor _ _ (by omega)]
  rw [shl8_lor _ _ (by omega)]
  rw [shl8_lor _ _ (by omega)]
  rw [shl16_lor _ _ (by omega)]
  rw [shl16_lor _ _ (by omega)]
  rw [shl32_lor _ _ (by omega)]
  simp only [Nat.shiftRight_eq_div_pow]
  norm_num
  omega

theorem vlcHigh_length (val : Nat) : ∀ m, (vlcHigh val m).length = m := by
  intro m
  induction m with
  | zero => rfl
  | succ m ih => simp [vlcHigh, ih]

theorem ff_put_v_loop_wstate (val : Nat) :
    ∀ (m : Nat) (bs : List Nat), bs.length + m < 20 →
    ff_put_v_loop val (wstate bs) m = wstate (bs ++ vlcHigh val m) := by
  intro m
  induction m with
  | zero => intro bs h; simp [ff_put_v_loop, vlcHigh]
  | succ m ih =>
    intro bs h
    rw [ff_put_v_loop, avio_w8_wstate _ _ (by omega)]
    rw [ih _ (by simp only [len_lemma, List.length_cons, List.length_nil]; omega)]
    simp [vlcHigh]

theorem ff_get_v_length_pos (val : Nat) : 1 ≤ ff_get_v_length val := by
  rw [ff_get_v_length]
  split <;> omega

theorem lt_pow_get_v_length (val : Nat) : val < 128 ^ ff_get_v_length val := by
  induction val using Nat.strong_induction_on with
  | _ val ih =>
    rw [ff_get_v_length]
    split
    · next h =>
      rw [Nat.shiftRight_eq_div_pow] at h
      norm_num at h ⊢
      omega
    · next h =>
      have hsr : val >>> 7 = val / 128 := by
        rw [Nat.shiftRight_eq_div_pow]
      rw [hsr] at h ⊢
      have hlt : val / 128 < val := by omega
      have h2 := ih _ hlt
      rw [pow_add, pow_one]
      omega

theorem get_v_length_le : ∀ (k val : Nat), val < 128 ^ (k + 1) → ff_get_v_length val ≤ k + 1 := by
  intro k
  induction k with
  | zero =>
    intro val h
    rw [ff_get_v_length]
    split
    · omega
    · next hs =>
      exfalso
      rw [Nat.shiftRight_eq_div_pow] at hs
      norm_num at hs h
      omega
  | succ k ih =>
    intro val h
    rw [ff_get_v_length]
    split
    · omega
    · next hs =>
      have hdiv : val >>> 7 < 128 ^ (k + 1) := by
        have hsr : val >>> 7 = val / 128 := by
          rw [Nat.shiftRight_eq_div_pow]
        rw [hsr]
        rw [pow_succ] at h
        omega
      have := ih _ hdiv
      omega

theorem mask7_eq (v : Nat) : v &&& 127 = v % 128 := by
  have h := Nat.and_pow_two_sub_one_eq_mod v 7
  norm_num at h
  exact h

set_option maxRecDepth 4000 in
theorem or128_facts : ∀ y, y < 256 →
    (128 ||| y) % 256 = 128 ||| y ∧ (128 ||| y) &&& 127 = y % 128 ∧
    (128 ||| y) &&& 128 = 128 := by decide

theorem small_and_eq : ∀ x, x < 128 → x &&& 127 = x ∧ x &&& 128 = 0 := by decide

theorem getD_append_length (pre : List Nat) (x : Nat) (rest : List Nat) :
    (pre ++ x :: rest).getD pre.length 0 = x := by
  induction pre with
  | nil => rfl
  | cons a pre ih => simpa using ih

theorem ff_put_v_wstate (val : Nat) (h : ff_get_v_length val ≤ 10) :
    ff_put_v (wstate []) val =
      wstate (vlcHigh val (ff_get_v_length val - 1) ++ [(val &&& 127) % 256]) := by
  simp only [ff_put_v]
  rw [ff_put_v_loop_wstate val (ff_get_v_length val - 1) [] (by simp; omega)]
  rw [avio_w8_wstate _ _ (by simp [vlcHigh_length]; omega)]
  simp

theorem read_varlen_loop_lit (val : Nat) :
    ∀ (m acc fuel : Nat) (pre rest : List Nat), m + 1 ≤ fuel →
    ffio_read_varlen_loop
        (lit (pre ++ (vlcHigh val m ++ [(val &&& 127) % 256]) ++ rest) pre.length) acc fuel =
      (acc * 128 ^ (m + 1) + val % 128 ^ (m + 1),
       lit (pre ++ (vlcHigh val m ++ [(val &&& 127) % 256]) ++ rest) (pre.length + (m + 1))) := by
  intro m
  induction m with
  | zero =>
    intro acc fuel pre rest hfuel
    obtain ⟨f, rfl⟩ : ∃ f, fuel = f + 1 := ⟨fuel - 1, by omega⟩
    rw [ffio_read_varlen_loop]
    have hget : (pre ++ (vlcHigh val 0 ++ [(val &&& 127) % 256]) ++ rest).getD pre.length 0 =
        (val &&& 127) % 256 := by
      simp only [vlcHigh, List.nil_append, List.cons_append, List.append_assoc]
      exact getD_append_length pre _ _
    rw [avio_r8_lit _ _ (by
      simp only [List.length_append, vlcHigh_length, List.length_cons, List.length_nil]
      omega)]
    simp only [hget]
    have hx : (val &&& 127) % 256 = val % 128 := by
      rw [mask7_eq]
      exact Nat.mod_eq_of_lt (by omega)
    rw [hx]
    have hand := small_and_eq (val % 128) (by omega)
    rw [if_neg (by simp [hand.2])]
    rw [Prod.mk.injEq]
    refine ⟨?_, rfl⟩
    rw [hand.1, Nat.shiftLeft_eq]
    norm_num
  | succ m ih =>
    intro acc fuel pre rest hfuel
    obtain ⟨f, rfl⟩ : ∃ f, fuel = f + 1 := ⟨fuel - 1, by omega⟩
    rw [ffio_read_varlen_loop]
    have hget : (pre ++ (vlcHigh val (m + 1) ++ [(val &&& 127) % 256]) ++ rest).getD pre.length 0 =
        (128 ||| ((val >>> (7 * (m + 1))) % 256)) % 256 := by
      simp only [vlcHigh, List.cons_append, List.append_assoc]
      exact getD_append_length pre _ _
    rw [avio_r8_lit _ _ (by
      simp only [List.length_append, vlcHigh_length, List.length_cons, List.length_nil]
      omega)]
    simp only [hget]
    have hor := or128_facts ((val >>> (7 * (m + 1))) % 256) (by omega)
    rw [hor.1]
    rw [if_pos (by rw [hor.2.2]; omega)]
    have hrelist : pre ++ (vlcHigh val (m + 1) ++ [(val &&& 127) % 256]) ++ rest =
        (pre ++ [(128 ||| ((val >>> (7 * (m + 1))) % 256)) % 256]) ++
          (vlcHigh val m ++ [(val &&& 127) % 256]) ++ rest := by
      simp [vlcHigh, hor.1]
    rw [hrelist]
    have hlen : (pre ++ [(128 ||| ((val >>> (7 * (m + 1))) % 256)) % 256]).length =
        pre.length + 1 := by simp
    rw [show pre.length + 1 = (pre ++ [(128 ||| ((val >>> (7 * (m + 1))) % 256)) % 256]).length
      from hlen.symm]
    rw [ih _ f _ _ (by omega)]
    rw [hlen]
    have hD : (128 ||| ((val >>> (7 * (m + 1))) % 256)) &&& 127 =
        (val / 128 ^ (m + 1)) % 128 := by
      have hpow : (2 : Nat) ^ (7 * (m + 1)) = 128 ^ (m + 1) := by
        rw [Nat.pow_mul]
      rw [hor.2.1, Nat.mod_mod_of_dvd _ (by norm_num : (128 : Nat) ∣ 256),
        Nat.shiftRight_eq_div_pow, hpow]
    rw [hD]
    have hmod : val % 128 ^ (m + 1 + 1) =
        val % 128 ^ (m + 1) + 128 ^ (m + 1) * (val / 128 ^ (m + 1) % 128) := by
      rw [pow_succ, Nat.mod_mul]
    rw [Prod.mk.injEq]
    refine ⟨?_, ?_⟩
    · rw [hmod, Nat.shiftLeft_eq]
      have hps : (128 : Nat) ^ (m + 1 + 1) = 128 ^ (m + 1) * 128 := pow_succ 128 (m + 1)
      rw [hps]
      ring
    · have hpl : pre.length + 1 + (m + 1) = pre.length + (m + 1 + 1) := by omega
      rw [hpl]

theorem roundtrip_varlen (v : Nat) (hv : v < 18446744073709551616) :
    (ffio_read_varlen (readLiteral (writtenBytes (fun s => ff_put_v s v)))).1 = v := by
  have hL : ff_get_v_length v ≤ 10 := by
    apply get_v_length_le 9
    have h2 : (18446744073709551616 : Nat) ≤ 128 ^ (9 + 1) := by norm_num
    omega
  have hL1 := ff_get_v_length_pos v
  rw [writtenBytes_eq _ _ (by simpa using ff_put_v_wstate v hL)]
  rw [readLiteral_eq, ffio_read_varlen]
  have hfe : (lit (vlcHigh v (ff_get_v_length v - 1) ++ [(v &&& 127) % 256]) 0).buf_end -
      (lit (vlcHigh v (ff_get_v_length v - 1) ++ [(v &&& 127) % 256]) 0).buf_ptr + 1 =
      ff_get_v_length v + 1 := by
    rw [lit_def]
    simp only [List.length_append, vlcHigh_length, List.length_cons, List.length_nil]
    omega
  rw [hfe]
  have hloop := read_varlen_loop_lit v (ff_get_v_length v - 1) 0 (ff_get_v_length v + 1) [] []
    (by omega)
  simp only [List.nil_append, List.append_nil, List.length_nil] at hloop
  rw [hloop]
  show 0 * 128 ^ (ff_get_v_length v - 1 + 1) + v % 128 ^ (ff_get_v_length v - 1 + 1) = v
  have hm : ff_get_v_length v - 1 + 1 = ff_get_v_length v := by omega
  rw [hm, Nat.zero_mul, Nat.zero_add]
  exact Nat.mod_eq_of_lt (lt_pow_get_v_length v)

/-- C1: round-trip of typed I/O. For every in-range value `v`, writing `v`
with the little-endian writer `avio_wlX` (resp. big-endian `avio_wbX`) into
a fresh buffered stream and reading the written bytes back from position 0
with `avio_rlX` (resp. `avio_rbX`) yields `v`, for each width
X ∈ {16, 24, 32, 64}; and for every `v < 2^64`, writing `v` with the 7-bit
variable-length writer `ff_put_v` and reading it back with
`ffio_read_varlen` yields `v`. -/
theorem typed_io_roundtrip (v : Nat) :
    (v < 65536 → (avio_rl16 (readLiteral (writtenBytes (fun s => avio_wl16 s v)))).1 = v) ∧
    (v < 65536 → (avio_rb16 (readLiteral (writtenBytes (fun s => avio_wb16 s v)))).1 = v) ∧
    (v < 16777216 → (avio_rl24 (readLiteral (writtenBytes (fun s => avio_wl24 s v)))).1 = v) ∧
    (v < 16777216 → (avio_rb24 (readLiteral (writtenBytes (fun s => avio_wb24 s v)))).1 = v) ∧
    (v < 4294967296 → (avio_rl32 (readLiteral (writtenBytes (fun s => avio_wl32 s v)))).1 = v) ∧
    (v < 4294967296 → (avio_rb32 (readLiteral (writtenBytes (fun s => avio_wb32 s v)))).1 = v) ∧
    (v < 18446744073709551616 →
      (avio_rl64 (readLiteral (writtenBytes (fun s => avio_wl64 s v)))).1 = v) ∧
    (v < 18446744073709551616 →
      (avio_rb64 (readLiteral (writtenBytes (fun s => avio_wb64 s v)))).1 = v) ∧
    (v < 18446744073709551616 →
      (ffio_read_varlen (readLiteral (writtenBytes (fun s => ff_put_v s v)))).1 = v) :=
  ⟨roundtrip_rl16 v, roundtrip_rb16 v, roundtrip_rl24 v, roundtrip_rb24 v,
   roundtrip_rl32 v, roundtrip_rb32 v, roundtrip_rl64 v, roundtrip_rb64 v,
   roundtrip_varlen v⟩

/-- Witness for C1 at `v = 3141592653`: all nine round-trips hold at a
concrete input (those whose width bound admits it). -/
theorem typed_io_roundtrip_witness :
    (avio_rl32 (readLiteral (writtenBytes (fun s => avio_wl32 s 3141592653)))).1 =
      3141592653 ∧
    (ffio_read_varlen (readLiteral (writtenBytes (fun s => ff_put_v s 3141592653)))).1 =
      3141592653 :=
  ⟨(typed_io_roundtrip 3141592653).2.2.2.2.1 (by decide),
   (typed_io_roundtrip 3141592653).2.2.2.2.2.2.2.2 (by decide)⟩
